import Mathlib

set_option maxHeartbeats 1000000

/-!
Shallow embedding of the Texting Mafia room engine.

Sources: `src/server.js` (Node/socket.io variant) and
`src/worker/src/worker.js` (Cloudflare Worker / Durable Object variant).

Conventions of the embedding:
* JS `Map`s keyed by player id become association lists (`List Player`,
  keyed by the `id` field) preserving insertion order, as JS `Map`
  iteration does.
* `Date.now()` becomes an explicit `now : Nat` parameter; the random
  ids produced by `makeId()` / `crypto.randomUUID()` become explicit
  `String` parameters; `randomInt(n)` draws become explicit `Nat`
  parameters reduced modulo the candidate-list length.
* JS `null`-able strings become `Option String`; the JS falsiness of a
  possibly-empty string in `x || fallback` is modelled by `jsOrNull` /
  `jsOrDefault`.
* The Mafia cooldown subtraction is performed over `Int`, exactly
  mirroring `Math.max(0, COOLDOWN - (now - last))`.
* The per-session secret of the Worker variant's players is not modelled:
  no claim concerns authentication.
-/

inductive Phase
  | lobby
  | inRound
  | ended
deriving DecidableEq, Repr

inductive Role
  | villager
  | mafia
  | guardian
deriving DecidableEq, Repr

structure Player where
  id : String
  name : String
  role : Role
  isAlive : Bool
  joinedAt : Nat
  eliminatedAt : Option Nat
deriving DecidableEq, Repr

inductive MsgKind
  | system
  | chat
deriving DecidableEq, Repr

/-- A chat message. Main-log messages have `toId = none`; DM messages
(which in the source carry no `type` field) are embedded with
`mtype = chat` and `toId = some recipient`. -/
structure Message where
  id : String
  mtype : MsgKind
  fromId : Option String
  fromName : String
  toId : Option String
  text : String
  atTime : Nat
deriving DecidableEq, Repr

structure RoundSummary where
  id : String
  round : Nat
  killedId : Option String
  savedId : Option String
  eliminatedId : Option String
  survivedBySaveId : Option String
  atTime : Nat
deriving DecidableEq, Repr

/-- Room state, the `lobby` object of `server.js` / `stateData` of
`worker.js`. `hostId` is an `Option` because the Worker variant
initialises it to `null`. -/
structure Lobby where
  code : String
  hostId : Option String
  players : List Player
  phase : Phase
  winner : Option String
  roundNumber : Nat
  roundEndsAt : Option Nat
  lastMafiaActionAt : Nat
  mafiaKillRound : Nat
  mafiaId : Option String
  guardianId : Option String
  pendingKillId : Option String
  pendingSaveId : Option String
  mainMessages : List Message
  dmThreads : List ((String × String) × List Message)
  history : List RoundSummary
deriving DecidableEq, Repr

def MIN_PLAYERS : Nat := 4
def ROUND_DURATION_MS : Nat := 2 * 60 * 1000
def MAFIA_COOLDOWN_MS : Int := 60 * 1000
def MAX_NAME_LEN : Nat := 24
def MAX_CHAT_LEN : Nat := 280
def MAX_MAIN_MESSAGES : Nat := 200
def MAX_DM_MESSAGES : Nat := 120

def findPlayer (ps : List Player) (pid : String) : Option Player :=
  ps.find? (fun p => p.id == pid)

/-- `lobby.players.get(pid)`. -/
def playerById (l : Lobby) (pid : String) : Option Player :=
  findPlayer l.players pid

/-- `lobby.players.get(x)` where `x` may be `null` (a JS `Map` lookup at
`null` misses, since all keys are strings). -/
def lookupOpt (l : Lobby) (o : Option String) : Option Player :=
  o.bind (playerById l)

def aliveB (l : Lobby) (pid : String) : Bool :=
  (playerById l pid).any (fun p => p.isAlive)

/-- Lexicographic comparison of character lists; models the JS `<`
operator on strings (code-unit lexicographic order). -/
def charListLt : List Char → List Char → Bool
  | [], [] => false
  | [], _ :: _ => true
  | _ :: _, [] => false
  | a :: as, b :: bs => if a < b then true else if b < a then false else charListLt as bs

def strLt (a b : String) : Bool := charListLt a.toList b.toList

/-- `sortedPairKey` of the sources: the unordered pair as an ordered pair. -/
def sortedPairKey (a b : String) : String × String :=
  if strLt a b then (a, b) else (b, a)

/-- JS `o?.name || null` where the string may be empty (falsy). -/
def jsOrNull (o : Option String) : Option String :=
  match o with
  | some s => if s = "" then none else some s
  | none => none

/-- JS `o?.name || d`. -/
def jsOrDefault (o : Option String) (d : String) : String :=
  match o with
  | some s => if s = "" then d else s
  | none => d

/-- JS `String(raw || "").replace(/\s+/g, " ").trim().slice(0, cap)`:
whitespace runs collapse to single spaces, outer whitespace is dropped,
then the first `cap` characters are kept. -/
def collapseTrimSlice (s : String) (cap : Nat) : String :=
  let collapsed :=
    String.intercalate " " ((s.split (fun c => c.isWhitespace)).filter (fun w => w ≠ ""))
  String.mk (collapsed.toList.take cap)

def sanitizeMessage (s : String) : String :=
  collapseTrimSlice s MAX_CHAT_LEN

def sanitizeName (s : String) : String :=
  let t := collapseTrimSlice s MAX_NAME_LEN
  if t = "" then "Player" else t

def mkSystemMessage (mid text : String) (now : Nat) : Message :=
  ⟨mid, MsgKind.system, none, "System", none, text, now⟩

/-- Push onto the main log, evicting the oldest entry beyond the cap
(the `push`/`shift` pattern of `addSystemMessage` / `addMainMessage`). -/
def pushMainCapped (msgs : List Message) (m : Message) : List Message :=
  let pushed := msgs ++ [m]
  if MAX_MAIN_MESSAGES < pushed.length then pushed.drop 1 else pushed

def addSystemMessageL (l : Lobby) (text mid : String) (now : Nat) : Lobby :=
  { l with mainMessages := pushMainCapped l.mainMessages (mkSystemMessage mid text now) }

def addMainMessageL (l : Lobby) (sender : Player) (text mid : String) (now : Nat) : Lobby :=
  let m := Message.mk mid MsgKind.chat (some sender.id) sender.name none text now
  { l with mainMessages := pushMainCapped l.mainMessages m }

def dmGet (threads : List ((String × String) × List Message)) (key : String × String) :
    List Message :=
  match threads.find? (fun kv => kv.1 == key) with
  | some kv => kv.2
  | none => []

def dmSet (threads : List ((String × String) × List Message)) (key : String × String)
    (v : List Message) : List ((String × String) × List Message) :=
  if threads.any (fun kv => kv.1 == key) then
    threads.map (fun kv => if kv.1 == key then (key, v) else kv)
  else
    threads ++ [(key, v)]

def addDmMessageL (l : Lobby) (sender recipient : Player) (text mid : String) (now : Nat) :
    Lobby :=
  let key := sortedPairKey sender.id recipient.id
  let current := dmGet l.dmThreads key
  let pushed := current ++
    [Message.mk mid MsgKind.chat (some sender.id) sender.name (some recipient.id) text now]
  let capped := if MAX_DM_MESSAGES < pushed.length then pushed.drop 1 else pushed
  { l with dmThreads := dmSet l.dmThreads key capped }

/-- The local `aliveNonMafia` count of `winnerForLobby`. -/
def aliveNonMafiaCount (l : Lobby) : Nat :=
  (l.players.filter (fun p => p.isAlive && some p.id != l.mafiaId)).length

/-- `winnerForLobby`: identical in both variants. The "Villagers" check
(mafia dead or absent) runs first; the "Mafia" check (alive non-mafia
count at most 1) runs only when the mafia is alive and present. -/
def winnerForLobby (l : Lobby) : Option String :=
  match lookupOpt l l.mafiaId with
  | none => some "Villagers"
  | some mafia =>
    if ¬ mafia.isAlive then some "Villagers"
    else if aliveNonMafiaCount l ≤ 1 then some "Mafia"
    else none

def setVillager (ps : List Player) : List Player :=
  ps.map (fun p => { p with role := Role.villager })

def setRoleFor (ps : List Player) (pid : String) (r : Role) : List Player :=
  ps.map (fun p => if p.id == pid then { p with role := r } else p)

/-- One guarded role assignment of `applyRoles`:
`if (id && players.has(id)) players.get(id).role = r`. -/
def roleStep (ps : List Player) (o : Option String) (r : Role) : List Player :=
  match o with
  | some x => if (findPlayer ps x).isSome then setRoleFor ps x r else ps
  | none => ps

/-- `applyRoles`: reset everyone to villager, then mark the mafia and
guardian players when the corresponding ids are set and present. -/
def applyRoles (l : Lobby) : Lobby :=
  let ps := roleStep (roleStep (setVillager l.players) l.mafiaId Role.mafia) l.guardianId
    Role.guardian
  { l with players := ps }

def aliveIdsOf (l : Lobby) : List String :=
  (l.players.filter (fun p => p.isAlive)).map (fun p => p.id)

/-- `candidates.length ? candidates[randomInt(candidates.length)] : null`,
with the random draw modelled as an arbitrary `k` reduced mod the length. -/
def pickRandom (xs : List String) (k : Nat) : Option String :=
  if xs.length = 0 then none else xs.get? (k % xs.length)

/-- `lobby.mafiaId && !lobby.players.has(lobby.mafiaId)` clearing step. -/
def presentOrNone (l : Lobby) (o : Option String) : Option String :=
  match o with
  | some x => if (playerById l x).isSome then some x else none
  | none => none

/-- `ensureRolesAfterDeparture` (both variants): clear role ids whose
player left the roster, back-fill empty slots from the alive roster
excluding the holder of the other special role, then `applyRoles`. -/
def ensureRolesAfterDeparture (l : Lobby) (k1 k2 : Nat) : Lobby :=
  if l.phase = Phase.lobby then l
  else
    let m0 := presentOrNone l l.mafiaId
    let g0 := presentOrNone l l.guardianId
    let als := aliveIdsOf l
    let m1 :=
      match m0 with
      | some m => some m
      | none => pickRandom (als.filter (fun i => some i != g0)) k1
    let g1 :=
      match g0 with
      | some g => some g
      | none => pickRandom (als.filter (fun i => some i != m1)) k2
    applyRoles { l with mafiaId := m1, guardianId := g1 }

/-- `target.isAlive = false; target.eliminatedAt = now` on the roster
entry with the given id (ids are unique). -/
def eliminatePlayers (ps : List Player) (pid : String) (now : Nat) : List Player :=
  ps.map (fun p =>
    if p.id == pid then { p with isAlive := false, eliminatedAt := some now } else p)

def createPlayer (sid name : String) (now : Nat) : Player :=
  ⟨sid, name, Role.villager, true, now, none⟩

/-- The post-departure win-condition re-check shared by both `remove`
variants: outside the lobby phase, a decided winner ends the game. -/
def winnerCheckAfterDeparture (l2 : Lobby) : Lobby :=
  if l2.phase ≠ Phase.lobby then
    match winnerForLobby l2 with
    | some w => { l2 with phase := Phase.ended, winner := some w, roundEndsAt := none }
    | none => l2
  else l2

/-- `removeSocketFromLobby` of `server.js`, restricted to one room: drop
the player, destroy the room when the roster empties (result `none`),
otherwise reassign host, clear the leaver's special role, back-fill
roles, re-check the win condition, and append the system message. -/
def removeFromLobby (l : Lobby) (sid : String) (now : Nat) (mid : String) (k1 k2 : Nat) :
    Option Lobby :=
  match playerById l sid with
  | none => some l
  | some leaving =>
    let ps := l.players.filter (fun p => p.id != sid)
    if ps.isEmpty then none
    else
      let host1 := if l.hostId = some sid then ps.head?.map (fun p => p.id) else l.hostId
      let m1 := if l.mafiaId = some sid then none else l.mafiaId
      let g1 := if l.guardianId = some sid then none else l.guardianId
      let l1 := { l with players := ps, hostId := host1, mafiaId := m1, guardianId := g1 }
      let l3 := winnerCheckAfterDeparture (ensureRolesAfterDeparture l1 k1 k2)
      some (addSystemMessageL l3 (leaving.name ++ " left the lobby.") mid now)

/-- `LobbyRoom.removePlayer` of `worker.js`: as the Node variant, but the
pending kill/save ids naming the leaver are also cleared, and the system
message carries a caller-supplied reason. -/
def workerRemoveFromLobby (l : Lobby) (sid : String) (reasonText : String) (now : Nat)
    (mid : String) (k1 k2 : Nat) : Option Lobby :=
  match playerById l sid with
  | none => some l
  | some leaving =>
    let ps := l.players.filter (fun p => p.id != sid)
    if ps.isEmpty then none
    else
      let host1 := if l.hostId = some sid then ps.head?.map (fun p => p.id) else l.hostId
      let m1 := if l.mafiaId = some sid then none else l.mafiaId
      let g1 := if l.guardianId = some sid then none else l.guardianId
      let pk1 := if l.pendingKillId = some sid then none else l.pendingKillId
      let ps1 := if l.pendingSaveId = some sid then none else l.pendingSaveId
      let l1 := { l with players := ps, hostId := host1, mafiaId := m1, guardianId := g1,
                         pendingKillId := pk1, pendingSaveId := ps1 }
      let l3 := winnerCheckAfterDeparture (ensureRolesAfterDeparture l1 k1 k2)
      some (addSystemMessageL l3 (leaving.name ++ " " ++ reasonText ++ ".") mid now)

def resetAlive (ps : List Player) : List Player :=
  ps.map (fun p => { p with isAlive := true, eliminatedAt := none })

/-- `startGame` (both variants): the first two ids of the shuffled roster
become mafia and guardian (`perm` is the shuffle's output), everyone is
revived, roles are applied, counters and logs are reset, and the round
clock starts. -/
def startGameCore (l : Lobby) (perm : List String) (now : Nat) (mid : String) : Lobby :=
  let l1 := applyRoles { l with players := resetAlive l.players,
                                mafiaId := perm[0]?, guardianId := perm[1]? }
  addSystemMessageL
    { l1 with phase := Phase.inRound, winner := none, roundNumber := 1,
              roundEndsAt := some (now + ROUND_DURATION_MS),
              lastMafiaActionAt := 0, mafiaKillRound := 0,
              pendingKillId := none, pendingSaveId := none,
              history := [], dmThreads := [], mainMessages := [] }
    "Game started. You can chat in public and private. Rounds are 2 minutes." mid now

/-- Result of a socket action handler: the room state it leaves behind,
the `ok` flag and error text of the acknowledgement, and how many state
broadcasts (`emitLobbyState` / `broadcastState`) it performed. -/
structure HandlerResult where
  lobby : Lobby
  ok : Bool
  error : Option String
  emits : Nat
deriving Repr

def rejectWith (l : Lobby) (e : String) : HandlerResult :=
  ⟨l, false, some e, 0⟩

/-- The `start_game` handler (`server.js`; the Worker `handleAction`
branch has the same guards over `playerIds().length`). -/
def startGameHandler (l : Lobby) (sid : String) (perm : List String) (now : Nat)
    (mid : String) : HandlerResult :=
  if l.hostId ≠ some sid then rejectWith l "Only the host can start the game."
  else if l.phase ≠ Phase.lobby then rejectWith l "Game already started."
  else if l.players.length < MIN_PLAYERS then
    rejectWith l "Need at least 4 players to start."
  else ⟨startGameCore l perm now mid, true, none, 1⟩

/-- The `send_main_message` handler (both variants). -/
def sendMainHandler (l : Lobby) (sid rawText : String) (mid : String) (now : Nat) :
    HandlerResult :=
  match playerById l sid with
  | none => rejectWith l "Player not found in lobby."
  | some sender =>
    if l.phase ≠ Phase.lobby ∧ sender.isAlive = false then
      rejectWith l "Eliminated players cannot send chat messages."
    else
      let text := sanitizeMessage rawText
      if text = "" then rejectWith l "Message is empty."
      else ⟨addMainMessageL l sender text mid now, true, none, 1⟩

/-- The `send_private_message` handler (both variants). -/
def sendPrivateHandler (l : Lobby) (sid toId rawText : String) (mid : String) (now : Nat) :
    HandlerResult :=
  match playerById l sid with
  | none => rejectWith l "Player not found in lobby."
  | some sender =>
    if l.phase ≠ Phase.lobby ∧ sender.isAlive = false then
      rejectWith l "Eliminated players cannot send chat messages."
    else
      match playerById l toId with
      | none => rejectWith l "Select a valid player for private chat."
      | some recipient =>
        if recipient.id == sender.id then
          rejectWith l "Select a valid player for private chat."
        else
          let text := sanitizeMessage rawText
          if text = "" then rejectWith l "Message is empty."
          else ⟨addDmMessageL l sender recipient text mid now, true, none, 1⟩

/-- The `mafia_kill` handler (both variants): phase, identity, one-kill-
per-round stamp, cooldown, then target validation; on success record the
pending kill and stamp the action time and round number. -/
def mafiaKillHandler (l : Lobby) (sid targetId : String) (now : Nat) : HandlerResult :=
  if l.phase ≠ Phase.inRound then
    rejectWith l "Kills can only happen during a live round."
  else
    match playerById l sid with
    | none => rejectWith l "Only the alive mafia can use this action."
    | some mafia =>
      if ¬ (some mafia.id = l.mafiaId ∧ mafia.isAlive = true) then
        rejectWith l "Only the alive mafia can use this action."
      else if l.mafiaKillRound = l.roundNumber then
        rejectWith l "Mafia can only pick one kill target per round."
      else if 0 < max 0 (MAFIA_COOLDOWN_MS - ((now : Int) - (l.lastMafiaActionAt : Int))) then
        rejectWith l "Skull cooldown active."
      else
        match playerById l targetId with
        | none => rejectWith l "Pick an alive target other than yourself."
        | some target =>
          if ¬ (target.isAlive = true ∧ target.id ≠ mafia.id) then
            rejectWith l "Pick an alive target other than yourself."
          else
            ⟨{ l with pendingKillId := some targetId, lastMafiaActionAt := now,
                      mafiaKillRound := l.roundNumber }, true, none, 1⟩

/-- The `guardian_save` handler (both variants). -/
def guardianSaveHandler (l : Lobby) (sid targetId : String) : HandlerResult :=
  if l.phase ≠ Phase.inRound then
    rejectWith l "Saves can only happen during a live round."
  else
    match playerById l sid with
    | none => rejectWith l "Only the alive guardian angel can use this action."
    | some guardian =>
      if ¬ (some guardian.id = l.guardianId ∧ guardian.isAlive = true) then
        rejectWith l "Only the alive guardian angel can use this action."
      else
        match playerById l targetId with
        | none => rejectWith l "Pick an alive target to save."
        | some target =>
          if target.isAlive = false then rejectWith l "Pick an alive target to save."
          else ⟨{ l with pendingSaveId := some targetId }, true, none, 1⟩

/-- Result of a join attempt: `lobby = none` means the room no longer
exists (the Node handler can delete it on the way in). -/
structure JoinResult where
  lobby : Option Lobby
  ok : Bool
  error : Option String
  emits : Nat
deriving Repr

/-- The Node `join_lobby` handler, projected to the case in which the
acting socket's current lobby (if any) is the target room itself: it
first runs `removeSocketFromLobby`, and only then validates the phase
and adds the player. -/
def nodeJoin (l : Lobby) (sid rawName : String) (now : Nat) (remMid joinMid : String)
    (k1 k2 : Nat) : JoinResult :=
  let isMember := (playerById l sid).isSome
  let pre : Option Lobby := if isMember then removeFromLobby l sid now remMid k1 k2 else some l
  let preEmits : Nat := if isMember ∧ pre.isSome then 1 else 0
  match pre with
  | none => ⟨none, false, some "Lobby code not found.", preEmits⟩
  | some l0 =>
    if l0.phase ≠ Phase.lobby then
      ⟨some l0, false, some "Game already started. Join before the host starts.", preEmits⟩
    else
      let name := sanitizeName rawName
      let l1 := { l0 with players := l0.players ++ [createPlayer sid name now] }
      ⟨some (addSystemMessageL l1 (name ++ " joined the lobby.") joinMid now),
       true, none, preEmits + 1⟩

/-- The Worker `/internal/join` endpoint: validation before any mutation. -/
def workerJoin (l : Lobby) (pid rawName : String) (now : Nat) (mid : String) : JoinResult :=
  if l.phase ≠ Phase.lobby then
    ⟨some l, false, some "Game already started. Join before the host starts.", 0⟩
  else
    let name := sanitizeName rawName
    let l1 := { l with players := l.players ++ [createPlayer pid name now] }
    let l2 := if l1.hostId = none then { l1 with hostId := some pid } else l1
    ⟨some (addSystemMessageL l2 (name ++ " joined the lobby.") mid now), true, none, 1⟩

/-- The re-validation at the top of `finishRound`: a pending id is kept
only if its target is still present and alive. -/
def revalidate (l : Lobby) (o : Option String) : Option String :=
  match o with
  | some x => if aliveB l x then some x else none
  | none => none

/-- The elimination step of `finishRound` in `server.js`: the resulting
roster, `eliminatedId` and `survivedBySaveId`, from the guard
`if (killedId && killedId === savedId) ... else if (killedId) ...`. -/
def nodeOutcome (l : Lobby) (now : Nat) : List Player × Option String × Option String :=
  match revalidate l l.pendingKillId with
  | some k =>
    if revalidate l l.pendingSaveId = some k then (l.players, none, some k)
    else
      match playerById l k with
      | some target =>
        if target.isAlive then (eliminatePlayers l.players k now, some k, none)
        else (l.players, none, none)
      | none => (l.players, none, none)
  | none => (l.players, none, none)

/-- The Worker elimination step; its guard additionally tests `savedId`
for truthiness (`killedId && savedId && killedId === savedId`). -/
def workerOutcome (l : Lobby) (now : Nat) : List Player × Option String × Option String :=
  match revalidate l l.pendingKillId with
  | some k =>
    if (revalidate l l.pendingSaveId).isSome ∧ revalidate l l.pendingSaveId = some k then
      (l.players, none, some k)
    else
      match playerById l k with
      | some target =>
        if target.isAlive then (eliminatePlayers l.players k now, some k, none)
        else (l.players, none, none)
      | none => (l.players, none, none)
  | none => (l.players, none, none)

/-- The summary object pushed by `finishRound` (Node variant). -/
def nodeSummary (l : Lobby) (now : Nat) (sumId : String) : RoundSummary :=
  ⟨sumId, l.roundNumber, revalidate l l.pendingKillId, revalidate l l.pendingSaveId,
   (nodeOutcome l now).2.1, (nodeOutcome l now).2.2, now⟩

/-- The summary object pushed by `finishRound` (Worker variant). -/
def workerSummary (l : Lobby) (now : Nat) (sumId : String) : RoundSummary :=
  ⟨sumId, l.roundNumber, revalidate l l.pendingKillId, revalidate l l.pendingSaveId,
   (workerOutcome l now).2.1, (workerOutcome l now).2.2, now⟩

/-- The room state after the elimination, the history push, and the
clearing of the pending ids (Node variant keeps the kill-round stamp). -/
def nodeAfterResolve (l : Lobby) (now : Nat) (sumId : String) : Lobby :=
  { l with players := (nodeOutcome l now).1,
           history := l.history ++ [nodeSummary l now sumId],
           pendingKillId := none, pendingSaveId := none }

/-- As `nodeAfterResolve`, but the Worker variant also resets
`mafiaKillRound` to `0`. -/
def workerAfterResolve (l : Lobby) (now : Nat) (sumId : String) : Lobby :=
  { l with players := (workerOutcome l now).1,
           history := l.history ++ [workerSummary l now sumId],
           pendingKillId := none, pendingSaveId := none, mafiaKillRound := 0 }

/-- The `Round N ended` system message text; the fallback for a missing
saved name is `"No one"` in the Node variant and `"Unknown"` in the
Worker variant. -/
def roundEndMessage (l1 : Lobby) (killedId savedId : Option String) (savedDefault : String)
    (round : Nat) : String :=
  let killedName :=
    match killedId with
    | some k => jsOrDefault ((playerById l1 k).map (fun p => p.name)) "Unknown"
    | none => "No one"
  let savedName :=
    match savedId with
    | some s => jsOrDefault ((playerById l1 s).map (fun p => p.name)) savedDefault
    | none => "No one"
  "Round " ++ toString round ++ " ended. Killed: " ++ killedName ++ ". Saved: " ++
    savedName ++ "."

/-- The tail of `finishRound` (both variants): evaluate the win
condition on the post-elimination state; on a winner, end the game and
announce it; otherwise increment the round and restart the clock. -/
def finishWrap (l2 : Lobby) (now : Nat) (sysId2 : String) : Lobby :=
  match winnerForLobby l2 with
  | some w =>
    addSystemMessageL { l2 with phase := Phase.ended, winner := some w, roundEndsAt := none }
      (w ++ " win.") sysId2 now
  | none =>
    { l2 with roundNumber := l2.roundNumber + 1,
              roundEndsAt := some (now + ROUND_DURATION_MS) }

/-- `finishRound` of `server.js`. Returns the new state and the appended
summary (`none` when the idempotence guard fired). -/
def nodeFinishRound (l : Lobby) (now : Nat) (sumId sysId1 sysId2 : String) :
    Lobby × Option RoundSummary :=
  if l.phase ≠ Phase.inRound then (l, none)
  else
    let summary := nodeSummary l now sumId
    let l1 := nodeAfterResolve l now sumId
    let l2 := addSystemMessageL l1
      (roundEndMessage l1 summary.killedId summary.savedId "No one" summary.round) sysId1 now
    (finishWrap l2 now sysId2, some summary)

/-- `LobbyRoom.finishRound` of `worker.js`. -/
def workerFinishRound (l : Lobby) (now : Nat) (sumId sysId1 sysId2 : String) :
    Lobby × Option RoundSummary :=
  if l.phase ≠ Phase.inRound then (l, none)
  else
    let summary := workerSummary l now sumId
    let l1 := workerAfterResolve l now sumId
    let l2 := addSystemMessageL l1
      (roundEndMessage l1 summary.killedId summary.savedId "Unknown" summary.round) sysId1 now
    (finishWrap l2 now sysId2, some summary)

/-- The `create_lobby` handler's fresh room, with its creator as host
and the creation system message appended. -/
def initialLobby (code sid name : String) (now : Nat) (mid : String) : Lobby :=
  addSystemMessageL
    { code := code, hostId := some sid, players := [createPlayer sid name now],
      phase := Phase.lobby, winner := none, roundNumber := 0, roundEndsAt := none,
      lastMafiaActionAt := 0, mafiaKillRound := 0, mafiaId := none, guardianId := none,
      pendingKillId := none, pendingSaveId := none, mainMessages := [], dmThreads := [],
      history := [] }
    (name ++ " created lobby " ++ code ++ ".") mid now

/-- The Worker `/internal/init` fresh room: empty roster, no host yet. -/
def workerInitialLobby (code : String) : Lobby :=
  { code := code, hostId := none, players := [], phase := Phase.lobby, winner := none,
    roundNumber := 0, roundEndsAt := none, lastMafiaActionAt := 0, mafiaKillRound := 0,
    mafiaId := none, guardianId := none, pendingKillId := none, pendingSaveId := none,
    mainMessages := [], dmThreads := [], history := [] }

/-!
## Presenter (`buildStateForViewer`, Node variant)

The helpers below take the lobby fields they read as separate arguments,
so that the dependence of each part of the snapshot on the room state is
explicit in its type.
-/

structure PlayerView where
  id : String
  name : String
  isSelf : Bool
  isHost : Bool
  isAlive : Bool
  roleVisible : Option Role
deriving DecidableEq, Repr

structure RevealPanel where
  mafiaName : Option String
  guardianName : Option String
deriving DecidableEq, Repr

structure HistoryView where
  id : String
  round : Nat
  killedName : Option String
  savedName : Option String
  eliminatedName : Option String
  survivedBySaveName : Option String
  atTime : Nat
deriving DecidableEq, Repr

structure DmThreadView where
  peerId : String
  peerName : String
  messages : List Message
deriving DecidableEq, Repr

/-- One roster entry of the snapshot, with the role-visibility rule:
own role always (once started), others' roles only under reveal and only
for the mafia/guardian ids. -/
def viewPlayerOf (phase : Phase) (hostId mafiaId guardianId : Option String)
    (viewerId : String) (reveal : Bool) (p : Player) : PlayerView :=
  let roleVisible : Option Role :=
    if phase ≠ Phase.lobby then
      if p.id == viewerId then some p.role
      else if reveal ∧ some p.id = mafiaId then some Role.mafia
      else if reveal ∧ some p.id = guardianId then some Role.guardian
      else none
    else none
  ⟨p.id, p.name, p.id == viewerId, hostId == some p.id, p.isAlive, roleVisible⟩

/-- Stable insertion sort by display name, modelling
`.sort((a, b) => a.name.localeCompare(b.name))` with lexicographic
string order standing in for the locale collation. -/
def insertPlayerView (pv : PlayerView) : List PlayerView → List PlayerView
  | [] => [pv]
  | x :: xs => if strLt pv.name x.name then pv :: x :: xs else x :: insertPlayerView pv xs

def sortByName (ps : List PlayerView) : List PlayerView :=
  ps.foldl (fun acc pv => insertPlayerView pv acc) []

def viewPlayers (ps : List Player) (phase : Phase) (hostId mafiaId guardianId : Option String)
    (viewerId : String) (reveal : Bool) : List PlayerView :=
  sortByName (ps.map (viewPlayerOf phase hostId mafiaId guardianId viewerId reveal))

/-- The reveal block: present exactly when reveal is active outside the
lobby phase; each name is `null` when the corresponding id is unset, its
player is missing, or the name is empty (JS `|| null`). -/
def revealPanelFor (ps : List Player) (phase : Phase) (mafiaId guardianId : Option String)
    (reveal : Bool) : Option RevealPanel :=
  if reveal ∧ phase ≠ Phase.lobby then
    some
      ⟨match mafiaId with
        | some m => jsOrNull ((findPlayer ps m).map (fun p => p.name))
        | none => none,
       match guardianId with
        | some g => jsOrNull ((findPlayer ps g).map (fun p => p.name))
        | none => none⟩
  else none

/-- `mapHistoryEntry`. -/
def historyEntryView (ps : List Player) (e : RoundSummary) : HistoryView :=
  ⟨e.id, e.round,
   e.killedId.map (fun k => jsOrDefault ((findPlayer ps k).map (fun p => p.name)) "Unknown"),
   e.savedId.map (fun s => jsOrDefault ((findPlayer ps s).map (fun p => p.name)) "Unknown"),
   e.eliminatedId.map (fun x => jsOrDefault ((findPlayer ps x).map (fun p => p.name)) "Unknown"),
   e.survivedBySaveId.map
     (fun x => jsOrDefault ((findPlayer ps x).map (fun p => p.name)) "Unknown"),
   e.atTime⟩

def historyViews (ps : List Player) (hist : List RoundSummary) : List HistoryView :=
  hist.map (historyEntryView ps)

/-- `dmThreadsForViewer` before sorting: keep the pairs involving the
viewer whose peer is still in the roster. -/
def dmThreadViewsRaw (ps : List Player) (threads : List ((String × String) × List Message))
    (viewerId : String) : List DmThreadView :=
  threads.filterMap (fun kv =>
    if kv.1.1 ≠ viewerId ∧ kv.1.2 ≠ viewerId then none
    else
      let peerId := if kv.1.1 == viewerId then kv.1.2 else kv.1.1
      match findPlayer ps peerId with
      | none => none
      | some peer => some ⟨peerId, peer.name, kv.2⟩)

def threadLastAt (t : DmThreadView) : Nat :=
  match t.messages.getLast? with
  | some m => m.atTime
  | none => 0

/-- Stable insertion sort by most-recent message, descending. -/
def insertThread (t : DmThreadView) : List DmThreadView → List DmThreadView
  | [] => [t]
  | x :: xs => if threadLastAt x < threadLastAt t then t :: x :: xs else x :: insertThread t xs

def sortThreads (ts : List DmThreadView) : List DmThreadView :=
  ts.foldl (fun acc t => insertThread t acc) []

def dmViewsFor (ps : List Player) (threads : List ((String × String) × List Message))
    (viewerId : String) : List DmThreadView :=
  sortThreads (dmThreadViewsRaw ps threads viewerId)

/-- `shouldRevealRoles`: the viewer is dead, or the game has ended. -/
def shouldRevealRoles (l : Lobby) (viewerId : String) : Bool :=
  match playerById l viewerId with
  | none => false
  | some viewer => !viewer.isAlive || l.phase == Phase.ended

/-- The `mafiaKillUsedThisRound` flag, computed identically by both
variants (`server.js` lines 236-239, `worker.js` lines 410-413). -/
def killUsedThisRound (l : Lobby) (viewerId : String) : Bool :=
  (some viewerId == l.mafiaId) && (l.phase == Phase.inRound) &&
    (l.mafiaKillRound == l.roundNumber)

/-- The Node cooldown display: only for the mafia viewer during a round. -/
def nodeMafiaCooldownMs (l : Lobby) (viewerId : String) (now : Nat) : Int :=
  if some viewerId = l.mafiaId ∧ l.phase = Phase.inRound then
    max 0 (MAFIA_COOLDOWN_MS - ((now : Int) - (l.lastMafiaActionAt : Int)))
  else 0

/-- `Math.max(0, roundEndsAt - now)` during a round (`Nat` subtraction
truncates at zero, which is exactly the `max`); `0` otherwise. -/
def timeLeftMsOf (phase : Phase) (roundEndsAt : Option Nat) (now : Nat) : Nat :=
  match phase, roundEndsAt with
  | Phase.inRound, some t => t - now
  | _, _ => 0

structure ViewState where
  lobbyCode : String
  phase : Phase
  started : Bool
  minPlayers : Nat
  hostId : Option String
  winner : Option String
  youId : String
  youName : String
  youRole : Option Role
  youAreAlive : Bool
  canChat : Bool
  roundNumber : Nat
  roundDurationMs : Nat
  roundEndsAt : Option Nat
  timeLeftMs : Nat
  mafiaCooldownMs : Int
  mafiaKillUsedThisRound : Bool
  pendingKillId : Option String
  pendingSaveId : Option String
  players : List PlayerView
  mainMessages : List Message
  dmThreads : List DmThreadView
  history : List HistoryView
  revealRoles : Option RevealPanel
deriving DecidableEq, Repr

/-- `buildStateForViewer` of `server.js`: the per-viewer snapshot. -/
def buildStateForViewer (l : Lobby) (viewerId : String) (now : Nat) : Option ViewState :=
  match playerById l viewerId with
  | none => none
  | some viewer =>
    some
      { lobbyCode := l.code
        phase := l.phase
        started := l.phase != Phase.lobby
        minPlayers := MIN_PLAYERS
        hostId := l.hostId
        winner := l.winner
        youId := viewer.id
        youName := viewer.name
        youRole := if l.phase = Phase.lobby then none else some viewer.role
        youAreAlive := viewer.isAlive
        canChat := (l.phase == Phase.lobby) || viewer.isAlive
        roundNumber := l.roundNumber
        roundDurationMs := ROUND_DURATION_MS
        roundEndsAt := l.roundEndsAt
        timeLeftMs := timeLeftMsOf l.phase l.roundEndsAt now
        mafiaCooldownMs := nodeMafiaCooldownMs l viewerId now
        mafiaKillUsedThisRound := killUsedThisRound l viewerId
        pendingKillId := if some viewer.id = l.mafiaId then l.pendingKillId else none
        pendingSaveId := if some viewer.id = l.guardianId then l.pendingSaveId else none
        players := viewPlayers l.players l.phase l.hostId l.mafiaId l.guardianId viewerId
          (shouldRevealRoles l viewerId)
        mainMessages := l.mainMessages
        dmThreads := dmViewsFor l.players l.dmThreads viewerId
        history := historyViews l.players l.history
        revealRoles := revealPanelFor l.players l.phase l.mafiaId l.guardianId
          (shouldRevealRoles l viewerId) }

/-!
## Operational model: reachable room states

`Step l l'` relates a room state to the state left behind by one
engine operation (successful or rejected), with the clock values,
random draws and generated ids as explicit parameters. `Reachable`
closes the two room-creation entry points under `Step`.
-/

def idsOf (ps : List Player) : List String := ps.map (fun p => p.id)

def memIds (ids : List String) (o : Option String) : Bool :=
  match o with
  | some x => ids.contains x
  | none => true

/-- The roster/role invariant of the spec: each set special-role id
names a present player, and the two ids differ when both are set. -/
def rolesOKcore (ids : List String) (m g : Option String) : Bool :=
  memIds ids m && memIds ids g &&
    (match m, g with
     | some a, some b => a != b
     | _, _ => true)

def rolesOK (l : Lobby) : Bool :=
  rolesOKcore (idsOf l.players) l.mafiaId l.guardianId

def LobbyInv (l : Lobby) : Prop :=
  rolesOK l = true ∧ (idsOf l.players).Nodup

inductive Step : Lobby → Lobby → Prop
  | joinNode (l : Lobby) (sid rawName : String) (now : Nat) (remMid joinMid : String)
      (k1 k2 : Nat) (l' : Lobby)
      (hfresh : playerById l sid = none)
      (h : (nodeJoin l sid rawName now remMid joinMid k1 k2).lobby = some l') :
      Step l l'
  | joinWorker (l : Lobby) (pid rawName : String) (now : Nat) (mid : String) (l' : Lobby)
      (hfresh : playerById l pid = none)
      (h : (workerJoin l pid rawName now mid).lobby = some l') :
      Step l l'
  | start (l : Lobby) (sid : String) (perm : List String) (now : Nat) (mid : String)
      (hperm : perm.Perm (idsOf l.players)) :
      Step l (startGameHandler l sid perm now mid).lobby
  | mainMsg (l : Lobby) (sid rawText mid : String) (now : Nat) :
      Step l (sendMainHandler l sid rawText mid now).lobby
  | privMsg (l : Lobby) (sid toId rawText mid : String) (now : Nat) :
      Step l (sendPrivateHandler l sid toId rawText mid now).lobby
  | kill (l : Lobby) (sid targetId : String) (now : Nat) :
      Step l (mafiaKillHandler l sid targetId now).lobby
  | save (l : Lobby) (sid targetId : String) :
      Step l (guardianSaveHandler l sid targetId).lobby
  | finishNode (l : Lobby) (now : Nat) (sumId sysId1 sysId2 : String) :
      Step l (nodeFinishRound l now sumId sysId1 sysId2).1
  | finishWorker (l : Lobby) (now : Nat) (sumId sysId1 sysId2 : String) :
      Step l (workerFinishRound l now sumId sysId1 sysId2).1
  | leaveNode (l : Lobby) (sid : String) (now : Nat) (mid : String) (k1 k2 : Nat) (l' : Lobby)
      (h : removeFromLobby l sid now mid k1 k2 = some l') :
      Step l l'
  | leaveWorker (l : Lobby) (sid reasonText : String) (now : Nat) (mid : String)
      (k1 k2 : Nat) (l' : Lobby)
      (h : workerRemoveFromLobby l sid reasonText now mid k1 k2 = some l') :
      Step l l'

inductive Reachable : Lobby → Prop
  | createNode (code sid name : String) (now : Nat) (mid : String) :
      Reachable (initialLobby code sid name now mid)
  | createWorker (code : String) : Reachable (workerInitialLobby code)
  | step (l l' : Lobby) (hr : Reachable l) (hs : Step l l') : Reachable l'

/-! ### Invariant preservation lemmas -/

theorem idsOf_map (f : Player → Player) (h : ∀ p, (f p).id = p.id) :
    ∀ ps : List Player, idsOf (ps.map f) = idsOf ps
  | [] => rfl
  | p :: t => by
      have ih := idsOf_map f h t
      simp only [List.map_cons, idsOf] at ih ⊢
      rw [h p, ih]

theorem idsOf_setVillager (ps : List Player) : idsOf (setVillager ps) = idsOf ps := by
  unfold setVillager
  apply idsOf_map
  intro p
  rfl

theorem idsOf_setRoleFor (ps : List Player) (pid : String) (r : Role) :
    idsOf (setRoleFor ps pid r) = idsOf ps := by
  unfold setRoleFor
  apply idsOf_map
  intro p
  by_cases h : p.id == pid <;> simp [h]

theorem idsOf_eliminatePlayers (ps : List Player) (pid : String) (now : Nat) :
    idsOf (eliminatePlayers ps pid now) = idsOf ps := by
  unfold eliminatePlayers
  apply idsOf_map
  intro p
  by_cases h : p.id == pid <;> simp [h]

theorem idsOf_resetAlive (ps : List Player) : idsOf (resetAlive ps) = idsOf ps := by
  unfold resetAlive
  apply idsOf_map
  intro p
  rfl

theorem idsOf_roleStep (ps : List Player) (o : Option String) (r : Role) :
    idsOf (roleStep ps o r) = idsOf ps := by
  cases o with
  | none => rfl
  | some x =>
      show idsOf (if (findPlayer ps x).isSome then setRoleFor ps x r else ps) = idsOf ps
      split <;> simp [idsOf_setRoleFor]

theorem applyRoles_players_ids (l : Lobby) : idsOf (applyRoles l).players = idsOf l.players := by
  simp [applyRoles, idsOf_roleStep, idsOf_setVillager]

theorem applyRoles_mafiaId (l : Lobby) : (applyRoles l).mafiaId = l.mafiaId := rfl

theorem applyRoles_guardianId (l : Lobby) : (applyRoles l).guardianId = l.guardianId := rfl

theorem applyRoles_phase (l : Lobby) : (applyRoles l).phase = l.phase := rfl

theorem pickRandom_mem (xs : List String) (k : Nat) (x : String)
    (h : pickRandom xs k = some x) : x ∈ xs := by
  unfold pickRandom at h
  split at h
  · exact absurd h (by simp)
  · exact List.get?_mem h

theorem findPlayer_isSome_mem (ps : List Player) (x : String)
    (h : (findPlayer ps x).isSome = true) : x ∈ idsOf ps := by
  unfold findPlayer at h
  obtain ⟨p, hp⟩ := Option.isSome_iff_exists.mp h
  have hmem := List.mem_of_find?_eq_some hp
  have hid := List.find?_some hp
  have hpx : p.id = x := by simpa using hid
  exact List.mem_map.mpr ⟨p, hmem, hpx⟩

theorem presentOrNone_some (l : Lobby) (o : Option String) (x : String)
    (h : presentOrNone l o = some x) : o = some x ∧ (playerById l x).isSome = true := by
  unfold presentOrNone at h
  cases o with
  | none => exact absurd h (by simp)
  | some y =>
    by_cases hy : (playerById l y).isSome = true
    · simp [hy] at h
      subst h
      exact ⟨rfl, hy⟩
    · simp [hy] at h

theorem mem_aliveIdsOf (l : Lobby) (x : String) (h : x ∈ aliveIdsOf l) :
    x ∈ idsOf l.players := by
  unfold aliveIdsOf at h
  obtain ⟨p, hp, hx⟩ := List.mem_map.mp h
  exact List.mem_map.mpr ⟨p, (List.mem_filter.mp hp).1, hx⟩

theorem memIds_of_mem (ids : List String) (x : String) (h : x ∈ ids) :
    memIds ids (some x) = true := by
  simp [memIds]
  exact h

theorem rolesOK_parts (l : Lobby) (h : rolesOK l = true) :
    memIds (idsOf l.players) l.mafiaId = true ∧
    memIds (idsOf l.players) l.guardianId = true ∧
    (∀ a b, l.mafiaId = some a → l.guardianId = some b → a ≠ b) := by
  simp only [rolesOK, rolesOKcore, Bool.and_eq_true] at h
  refine ⟨h.1.1, h.1.2, ?_⟩
  intro a b ha hb
  have := h.2
  rw [ha, hb] at this
  simpa using this

theorem rolesOK_build (l : Lobby)
    (hm : memIds (idsOf l.players) l.mafiaId = true)
    (hg : memIds (idsOf l.players) l.guardianId = true)
    (hd : ∀ a b, l.mafiaId = some a → l.guardianId = some b → a ≠ b) :
    rolesOK l = true := by
  simp only [rolesOK, rolesOKcore, Bool.and_eq_true]
  refine ⟨⟨hm, hg⟩, ?_⟩
  cases ha : l.mafiaId with
  | none => simp
  | some a =>
    cases hb : l.guardianId with
    | none => simp
    | some b => simpa using hd a b ha hb

theorem rolesOK_ensureRoles (l : Lobby) (k1 k2 : Nat) (h : rolesOK l = true) :
    rolesOK (ensureRolesAfterDeparture l k1 k2) = true := by
  unfold ensureRolesAfterDeparture
  by_cases hp : l.phase = Phase.lobby
  · simpa [hp] using h
  · simp only [hp, if_false]
    obtain ⟨hm, hg, hd⟩ := rolesOK_parts l h
    set m0 := presentOrNone l l.mafiaId with hm0
    set g0 := presentOrNone l l.guardianId with hg0
    set als := aliveIdsOf l with hals
    set m1 := (match m0 with
      | some m => some m
      | none => pickRandom (als.filter (fun i => some i != g0)) k1) with hm1
    set g1 := (match g0 with
      | some g => some g
      | none => pickRandom (als.filter (fun i => some i != m1)) k2) with hg1
    have hids : idsOf (applyRoles { l with mafiaId := m1, guardianId := g1 }).players =
        idsOf l.players := by
      rw [applyRoles_players_ids]
    have hmem1 : memIds (idsOf l.players) m1 = true := by
      rw [hm1]
      cases hc : m0 with
      | some m =>
        obtain ⟨ho, hpres⟩ := presentOrNone_some l l.mafiaId m hc
        exact memIds_of_mem _ _ (findPlayer_isSome_mem _ _ hpres)
      | none =>
        cases hpick : pickRandom (als.filter (fun i => some i != g0)) k1 with
        | none => simp [memIds]
        | some m =>
          have := pickRandom_mem _ _ _ hpick
          exact memIds_of_mem _ _ (mem_aliveIdsOf l m (List.mem_of_mem_filter this))
    have hmem2 : memIds (idsOf l.players) g1 = true := by
      rw [hg1]
      cases hc : g0 with
      | some g =>
        obtain ⟨ho, hpres⟩ := presentOrNone_some l l.guardianId g hc
        exact memIds_of_mem _ _ (findPlayer_isSome_mem _ _ hpres)
      | none =>
        cases hpick : pickRandom (als.filter (fun i => some i != m1)) k2 with
        | none => simp [memIds]
        | some g =>
          have := pickRandom_mem _ _ _ hpick
          exact memIds_of_mem _ _ (mem_aliveIdsOf l g (List.mem_of_mem_filter this))
    have hdist : ∀ a b, m1 = some a → g1 = some b → a ≠ b := by
      intro a b ha hb
      cases hcg : g0 with
      | some g =>
        have hb' : b = g := by rw [hg1, hcg] at hb; simpa using hb.symm
        subst hb'
        obtain ⟨hog, _⟩ := presentOrNone_some l l.guardianId b hcg
        cases hcm : m0 with
        | some m =>
          have ha' : a = m := by rw [hm1, hcm] at ha; simpa using ha.symm
          subst ha'
          obtain ⟨hom, _⟩ := presentOrNone_some l l.mafiaId a hcm
          exact hd a b hom hog
        | none =>
          rw [hm1, hcm] at ha
          have hmem := pickRandom_mem _ _ _ ha
          have hfilt := (List.mem_filter.mp hmem).2
          rw [hcg] at hfilt
          intro hab
          subst hab
          simp at hfilt
      | none =>
        rw [hg1, hcg] at hb
        have hmem := pickRandom_mem _ _ _ hb
        have hfilt := (List.mem_filter.mp hmem).2
        rw [ha] at hfilt
        intro hab
        subst hab
        simp at hfilt
    have := rolesOK_build { l with mafiaId := m1, guardianId := g1 }
      (by simpa using hmem1) (by simpa using hmem2) (by simpa using hdist)
    calc rolesOK (applyRoles { l with mafiaId := m1, guardianId := g1 })
        = rolesOKcore (idsOf l.players) m1 g1 := by
          simp [rolesOK, hids, applyRoles_mafiaId, applyRoles_guardianId]
      _ = true := by simpa [rolesOK] using this

theorem rolesOK_addSystemMessageL (l : Lobby) (t mid : String) (now : Nat) :
    rolesOK (addSystemMessageL l t mid now) = rolesOK l := rfl

theorem idsOf_addSystemMessageL (l : Lobby) (t mid : String) (now : Nat) :
    idsOf (addSystemMessageL l t mid now).players = idsOf l.players := rfl

theorem idsOf_ensureRoles (l : Lobby) (k1 k2 : Nat) :
    idsOf (ensureRolesAfterDeparture l k1 k2).players = idsOf l.players := by
  unfold ensureRolesAfterDeparture
  split
  · rfl
  · simp [applyRoles_players_ids]

theorem mem_idsOf_filter_ne (ps : List Player) (sid m : String) (hm : m ∈ idsOf ps)
    (hne : m ≠ sid) : m ∈ idsOf (ps.filter (fun p => p.id != sid)) := by
  obtain ⟨p, hp, hpid⟩ := List.mem_map.mp hm
  refine List.mem_map.mpr ⟨p, List.mem_filter.mpr ⟨hp, ?_⟩, hpid⟩
  subst hpid
  simpa using hne

theorem nodup_idsOf_filter (ps : List Player) (q : Player → Bool)
    (h : (idsOf ps).Nodup) : (idsOf (ps.filter q)).Nodup := by
  exact List.Nodup.sublist (List.Sublist.map _ (List.filter_sublist ps)) h

theorem rolesOK_winnerCheck (l2 : Lobby) :
    rolesOK (winnerCheckAfterDeparture l2) = rolesOK l2 := by
  unfold winnerCheckAfterDeparture
  split
  · cases winnerForLobby l2 <;> rfl
  · rfl

theorem idsOf_winnerCheck (l2 : Lobby) :
    idsOf (winnerCheckAfterDeparture l2).players = idsOf l2.players := by
  unfold winnerCheckAfterDeparture
  split
  · cases winnerForLobby l2 <;> rfl
  · rfl

theorem LobbyInv_removeFromLobby (l : Lobby) (sid : String) (now : Nat) (mid : String)
    (k1 k2 : Nat) (l' : Lobby) (hInv : LobbyInv l)
    (h : removeFromLobby l sid now mid k1 k2 = some l') : LobbyInv l' := by
  obtain ⟨hroles, hnodup⟩ := hInv
  obtain ⟨hm, hg, hd⟩ := rolesOK_parts l hroles
  unfold removeFromLobby at h
  split at h
  · simp only [Option.some.injEq] at h
    subst h
    exact ⟨hroles, hnodup⟩
  · rename_i leaving hleaving
    simp only [] at h
    split at h
    · exact absurd h (by simp)
    · rename_i hne
      simp only [Option.some.injEq] at h
      subst h
      have h2 : rolesOK (ensureRolesAfterDeparture
          { l with players := l.players.filter (fun p => p.id != sid),
                   hostId := if l.hostId = some sid then
                     (l.players.filter (fun p => p.id != sid)).head?.map (fun p => p.id)
                     else l.hostId,
                   mafiaId := if l.mafiaId = some sid then none else l.mafiaId,
                   guardianId := if l.guardianId = some sid then none else l.guardianId }
          k1 k2) = true := by
        apply rolesOK_ensureRoles
        apply rolesOK_build
        · cases hmi : l.mafiaId with
          | none => simp [memIds]
          | some m =>
            by_cases hms : some m = some sid
            · simp [hms, memIds]
            · have hmm : m ∈ idsOf l.players := by
                rw [hmi] at hm
                simpa [memIds, List.contains] using hm
              have : m ≠ sid := by simpa using hms
              simp only [hmi, hms, if_false]
              exact memIds_of_mem _ _ (mem_idsOf_filter_ne _ _ _ hmm this)
        · cases hgi : l.guardianId with
          | none => simp [memIds]
          | some g =>
            by_cases hgs : some g = some sid
            · simp [hgs, memIds]
            · have hgm : g ∈ idsOf l.players := by
                rw [hgi] at hg
                simpa [memIds, List.contains] using hg
              have : g ≠ sid := by simpa using hgs
              simp only [hgi, hgs, if_false]
              exact memIds_of_mem _ _ (mem_idsOf_filter_ne _ _ _ hgm this)
        · intro a b ha hb
          dsimp only at ha hb
          by_cases hms : l.mafiaId = some sid
          · rw [if_pos hms] at ha
            exact absurd ha (by simp)
          · rw [if_neg hms] at ha
            by_cases hgs : l.guardianId = some sid
            · rw [if_pos hgs] at hb
              exact absurd hb (by simp)
            · rw [if_neg hgs] at hb
              exact hd a b ha hb
      constructor
      · rw [rolesOK_addSystemMessageL, rolesOK_winnerCheck]
        exact h2
      · rw [idsOf_addSystemMessageL, idsOf_winnerCheck, idsOf_ensureRoles]
        exact nodup_idsOf_filter _ _ hnodup

theorem LobbyInv_workerRemoveFromLobby (l : Lobby) (sid reasonText : String) (now : Nat)
    (mid : String) (k1 k2 : Nat) (l' : Lobby) (hInv : LobbyInv l)
    (h : workerRemoveFromLobby l sid reasonText now mid k1 k2 = some l') : LobbyInv l' := by
  obtain ⟨hroles, hnodup⟩ := hInv
  obtain ⟨hm, hg, hd⟩ := rolesOK_parts l hroles
  unfold workerRemoveFromLobby at h
  split at h
  · simp only [Option.some.injEq] at h
    subst h
    exact ⟨hroles, hnodup⟩
  · rename_i leaving hleaving
    simp only [] at h
    split at h
    · exact absurd h (by simp)
    · rename_i hne
      simp only [Option.some.injEq] at h
      subst h
      have h2 : rolesOK (ensureRolesAfterDeparture
          { l with players := l.players.filter (fun p => p.id != sid),
                   hostId := if l.hostId = some sid then
                     (l.players.filter (fun p => p.id != sid)).head?.map (fun p => p.id)
                     else l.hostId,
                   mafiaId := if l.mafiaId = some sid then none else l.mafiaId,
                   guardianId := if l.guardianId = some sid then none else l.guardianId,
                   pendingKillId := if l.pendingKillId = some sid then none else l.pendingKillId,
                   pendingSaveId := if l.pendingSaveId = some sid then none else l.pendingSaveId }
          k1 k2) = true := by
        apply rolesOK_ensureRoles
        apply rolesOK_build
        · cases hmi : l.mafiaId with
          | none => simp [memIds]
          | some m =>
            by_cases hms : some m = some sid
            · simp [hms, memIds]
            · have hmm : m ∈ idsOf l.players := by
                rw [hmi] at hm
                simpa [memIds, List.contains] using hm
              have : m ≠ sid := by simpa using hms
              simp only [hmi, hms, if_false]
              exact memIds_of_mem _ _ (mem_idsOf_filter_ne _ _ _ hmm this)
        · cases hgi : l.guardianId with
          | none => simp [memIds]
          | some g =>
            by_cases hgs : some g = some sid
            · simp [hgs, memIds]
            · have hgm : g ∈ idsOf l.players := by
                rw [hgi] at hg
                simpa [memIds, List.contains] using hg
              have : g ≠ sid := by simpa using hgs
              simp only [hgi, hgs, if_false]
              exact memIds_of_mem _ _ (mem_idsOf_filter_ne _ _ _ hgm this)
        · intro a b ha hb
          dsimp only at ha hb
          by_cases hms : l.mafiaId = some sid
          · rw [if_pos hms] at ha
            exact absurd ha (by simp)
          · rw [if_neg hms] at ha
            by_cases hgs : l.guardianId = some sid
            · rw [if_pos hgs] at hb
              exact absurd hb (by simp)
            · rw [if_neg hgs] at hb
              exact hd a b ha hb
      constructor
      · rw [rolesOK_addSystemMessageL, rolesOK_winnerCheck]
        exact h2
      · rw [idsOf_addSystemMessageL, idsOf_winnerCheck, idsOf_ensureRoles]
        exact nodup_idsOf_filter _ _ hnodup

theorem rolesOK_congr (l' l : Lobby) (hp : idsOf l'.players = idsOf l.players)
    (hm : l'.mafiaId = l.mafiaId) (hg : l'.guardianId = l.guardianId) :
    rolesOK l' = rolesOK l := by
  unfold rolesOK
  rw [hp, hm, hg]

theorem LobbyInv_of_projections (l' l : Lobby) (hp : idsOf l'.players = idsOf l.players)
    (hm : l'.mafiaId = l.mafiaId) (hg : l'.guardianId = l.guardianId) (h : LobbyInv l) :
    LobbyInv l' :=
  ⟨(rolesOK_congr l' l hp hm hg).trans h.1, hp ▸ h.2⟩

theorem mafiaKill_projections (l : Lobby) (a t : String) (now : Nat) :
    (mafiaKillHandler l a t now).lobby.players = l.players ∧
    (mafiaKillHandler l a t now).lobby.mafiaId = l.mafiaId ∧
    (mafiaKillHandler l a t now).lobby.guardianId = l.guardianId := by
  unfold mafiaKillHandler rejectWith
  repeat' split
  all_goals exact ⟨rfl, rfl, rfl⟩

theorem guardianSave_projections (l : Lobby) (a t : String) :
    (guardianSaveHandler l a t).lobby.players = l.players ∧
    (guardianSaveHandler l a t).lobby.mafiaId = l.mafiaId ∧
    (guardianSaveHandler l a t).lobby.guardianId = l.guardianId := by
  unfold guardianSaveHandler rejectWith
  repeat' split
  all_goals exact ⟨rfl, rfl, rfl⟩

theorem sendMain_projections (l : Lobby) (sid rawText mid : String) (now : Nat) :
    (sendMainHandler l sid rawText mid now).lobby.players = l.players ∧
    (sendMainHandler l sid rawText mid now).lobby.mafiaId = l.mafiaId ∧
    (sendMainHandler l sid rawText mid now).lobby.guardianId = l.guardianId := by
  unfold sendMainHandler rejectWith addMainMessageL
  dsimp only
  repeat' split
  all_goals exact ⟨rfl, rfl, rfl⟩

theorem sendPrivate_projections (l : Lobby) (sid toId rawText mid : String) (now : Nat) :
    (sendPrivateHandler l sid toId rawText mid now).lobby.players = l.players ∧
    (sendPrivateHandler l sid toId rawText mid now).lobby.mafiaId = l.mafiaId ∧
    (sendPrivateHandler l sid toId rawText mid now).lobby.guardianId = l.guardianId := by
  unfold sendPrivateHandler rejectWith addDmMessageL
  dsimp only
  repeat' split
  all_goals exact ⟨rfl, rfl, rfl⟩

theorem memIds_mono (ids ids2 : List String) (o : Option String)
    (h : memIds ids o = true) (hsub : ∀ x, x ∈ ids → x ∈ ids2) : memIds ids2 o = true := by
  cases o with
  | none => rfl
  | some x =>
    simp [memIds] at h ⊢
    exact hsub x h

theorem not_mem_idsOf_of_find_none (l : Lobby) (sid : String)
    (h : playerById l sid = none) : sid ∉ idsOf l.players := by
  unfold playerById findPlayer at h
  rw [List.find?_eq_none] at h
  intro hmem
  obtain ⟨p, hp, hpid⟩ := List.mem_map.mp hmem
  exact absurd (by simp [hpid]) (h p hp)

theorem LobbyInv_append_fresh (l : Lobby) (p : Player)
    (hfresh : p.id ∉ idsOf l.players) (h : LobbyInv l) :
    LobbyInv { l with players := l.players ++ [p] } := by
  obtain ⟨hroles, hnodup⟩ := h
  obtain ⟨hm, hg, hd⟩ := rolesOK_parts l hroles
  have hids : idsOf (l.players ++ [p]) = idsOf l.players ++ [p.id] := by
    simp [idsOf]
  constructor
  · apply rolesOK_build
    · refine memIds_mono _ _ _ hm ?_
      intro x hx
      simp only [] at hids ⊢
      rw [hids]
      exact List.mem_append_left _ hx
    · refine memIds_mono _ _ _ hg ?_
      intro x hx
      simp only [] at hids ⊢
      rw [hids]
      exact List.mem_append_left _ hx
    · exact hd
  · simp only []
    rw [hids]
    simp [List.nodup_append, hnodup]
    exact fun hmem => absurd hmem hfresh

theorem LobbyInv_startGameCore (l : Lobby) (perm : List String) (now : Nat) (mid : String)
    (hperm : perm.Perm (idsOf l.players)) (hInv : LobbyInv l)
    (hlen : MIN_PLAYERS ≤ l.players.length) :
    LobbyInv (startGameCore l perm now mid) := by
  obtain ⟨_, hnodup⟩ := hInv
  have hpermnodup : perm.Nodup := (List.Perm.nodup_iff hperm).mpr hnodup
  have hplen : perm.length = l.players.length := by
    simpa [idsOf] using hperm.length_eq
  have h4 : (4 : Nat) ≤ l.players.length := by simpa [MIN_PLAYERS] using hlen
  have h0 : 0 < perm.length := by omega
  have h1 : 1 < perm.length := by omega
  have hget0 : perm[0]? = some (perm.get ⟨0, h0⟩) := by
    simp [List.getElem?_eq_getElem h0]
  have hget1 : perm[1]? = some (perm.get ⟨1, h1⟩) := by
    simp [List.getElem?_eq_getElem h1]
  have hne01 : perm.get ⟨0, h0⟩ ≠ perm.get ⟨1, h1⟩ := by
    intro hcontra
    have := (List.Nodup.get_inj_iff hpermnodup).mp hcontra
    simp at this
  have hmem0 : perm.get ⟨0, h0⟩ ∈ idsOf l.players :=
    hperm.mem_iff.mp (perm.get_mem 0 h0)
  have hmem1 : perm.get ⟨1, h1⟩ ∈ idsOf l.players :=
    hperm.mem_iff.mp (perm.get_mem 1 h1)
  have hids : idsOf (applyRoles { l with players := resetAlive l.players, mafiaId := perm[0]?, guardianId := perm[1]? }).players = idsOf l.players := by
    rw [applyRoles_players_ids]
    exact idsOf_resetAlive l.players
  unfold startGameCore
  constructor
  · rw [rolesOK_addSystemMessageL]
    apply rolesOK_build
    · rw [applyRoles_mafiaId]
      dsimp only
      rw [hids, hget0]
      exact memIds_of_mem _ _ hmem0
    · rw [applyRoles_guardianId]
      dsimp only
      rw [hids, hget1]
      exact memIds_of_mem _ _ hmem1
    · intro a b ha hb
      rw [applyRoles_mafiaId] at ha
      rw [applyRoles_guardianId] at hb
      dsimp only at ha hb
      rw [hget0, Option.some.injEq] at ha
      rw [hget1, Option.some.injEq] at hb
      subst ha
      subst hb
      exact hne01
  · rw [idsOf_addSystemMessageL]
    dsimp only
    rw [hids]
    exact hnodup

theorem finishWrap_projections (l2 : Lobby) (now : Nat) (s2 : String) :
    (finishWrap l2 now s2).players = l2.players ∧
    (finishWrap l2 now s2).mafiaId = l2.mafiaId ∧
    (finishWrap l2 now s2).guardianId = l2.guardianId ∧
    (finishWrap l2 now s2).history = l2.history ∧
    (finishWrap l2 now s2).mafiaKillRound = l2.mafiaKillRound := by
  unfold finishWrap
  cases winnerForLobby l2 <;> exact ⟨rfl, rfl, rfl, rfl, rfl⟩

theorem nodeOutcome_ids (l : Lobby) (now : Nat) :
    idsOf (nodeOutcome l now).1 = idsOf l.players := by
  unfold nodeOutcome
  repeat' split
  all_goals simp [idsOf_eliminatePlayers]

theorem workerOutcome_ids (l : Lobby) (now : Nat) :
    idsOf (workerOutcome l now).1 = idsOf l.players := by
  unfold workerOutcome
  repeat' split
  all_goals simp [idsOf_eliminatePlayers]

theorem nodeFinishRound_resolve (l : Lobby) (now : Nat) (sumId s1 s2 : String)
    (hph : l.phase = Phase.inRound) :
    (nodeFinishRound l now sumId s1 s2).1 =
      finishWrap (addSystemMessageL (nodeAfterResolve l now sumId)
        (roundEndMessage (nodeAfterResolve l now sumId) (nodeSummary l now sumId).killedId
          (nodeSummary l now sumId).savedId "No one" (nodeSummary l now sumId).round) s1 now)
        now s2 ∧
    (nodeFinishRound l now sumId s1 s2).2 = some (nodeSummary l now sumId) := by
  unfold nodeFinishRound
  rw [if_neg (by simp [hph])]
  exact ⟨rfl, rfl⟩

theorem workerFinishRound_resolve (l : Lobby) (now : Nat) (sumId s1 s2 : String)
    (hph : l.phase = Phase.inRound) :
    (workerFinishRound l now sumId s1 s2).1 =
      finishWrap (addSystemMessageL (workerAfterResolve l now sumId)
        (roundEndMessage (workerAfterResolve l now sumId) (workerSummary l now sumId).killedId
          (workerSummary l now sumId).savedId "Unknown" (workerSummary l now sumId).round)
          s1 now)
        now s2 ∧
    (workerFinishRound l now sumId s1 s2).2 = some (workerSummary l now sumId) := by
  unfold workerFinishRound
  rw [if_neg (by simp [hph])]
  exact ⟨rfl, rfl⟩

theorem finishNode_projections (l : Lobby) (now : Nat) (sumId s1 s2 : String) :
    idsOf (nodeFinishRound l now sumId s1 s2).1.players = idsOf l.players ∧
    (nodeFinishRound l now sumId s1 s2).1.mafiaId = l.mafiaId ∧
    (nodeFinishRound l now sumId s1 s2).1.guardianId = l.guardianId := by
  by_cases hph : l.phase = Phase.inRound
  · obtain ⟨h1, _⟩ := nodeFinishRound_resolve l now sumId s1 s2 hph
    rw [h1]
    obtain ⟨hp, hm, hg, _, _⟩ := finishWrap_projections _ now s2
    rw [hp, hm, hg]
    refine ⟨?_, rfl, rfl⟩
    rw [idsOf_addSystemMessageL]
    exact nodeOutcome_ids l now
  · unfold nodeFinishRound
    rw [if_pos (by simp [hph])]
    exact ⟨rfl, rfl, rfl⟩

theorem finishWorker_projections (l : Lobby) (now : Nat) (sumId s1 s2 : String) :
    idsOf (workerFinishRound l now sumId s1 s2).1.players = idsOf l.players ∧
    (workerFinishRound l now sumId s1 s2).1.mafiaId = l.mafiaId ∧
    (workerFinishRound l now sumId s1 s2).1.guardianId = l.guardianId := by
  by_cases hph : l.phase = Phase.inRound
  · obtain ⟨h1, _⟩ := workerFinishRound_resolve l now sumId s1 s2 hph
    rw [h1]
    obtain ⟨hp, hm, hg, _, _⟩ := finishWrap_projections _ now s2
    rw [hp, hm, hg]
    refine ⟨?_, rfl, rfl⟩
    rw [idsOf_addSystemMessageL]
    exact workerOutcome_ids l now
  · unfold workerFinishRound
    rw [if_pos (by simp [hph])]
    exact ⟨rfl, rfl, rfl⟩

theorem LobbyInv_addSystemMessageL (l : Lobby) (t mid : String) (now : Nat)
    (h : LobbyInv l) : LobbyInv (addSystemMessageL l t mid now) := by
  constructor
  · rw [rolesOK_addSystemMessageL]
    exact h.1
  · rw [idsOf_addSystemMessageL]
    exact h.2

theorem LobbyInv_nodeJoin (l : Lobby) (sid rawName : String) (now : Nat)
    (remMid joinMid : String) (k1 k2 : Nat) (l' : Lobby)
    (hfresh : playerById l sid = none)
    (h : (nodeJoin l sid rawName now remMid joinMid k1 k2).lobby = some l')
    (hInv : LobbyInv l) : LobbyInv l' := by
  unfold nodeJoin at h
  rw [hfresh] at h
  simp only [Option.isSome_none, Bool.false_eq_true, if_false, ite_false] at h
  split at h
  · simp only [Option.some.injEq] at h
    subst h
    exact hInv
  · simp only [Option.some.injEq] at h
    subst h
    apply LobbyInv_addSystemMessageL
    exact LobbyInv_append_fresh l _ (not_mem_idsOf_of_find_none l sid hfresh) hInv

theorem LobbyInv_workerJoin (l : Lobby) (pid rawName : String) (now : Nat) (mid : String)
    (l' : Lobby) (hfresh : playerById l pid = none)
    (h : (workerJoin l pid rawName now mid).lobby = some l')
    (hInv : LobbyInv l) : LobbyInv l' := by
  unfold workerJoin at h
  split at h
  · simp only [Option.some.injEq] at h
    subst h
    exact hInv
  · simp only [Option.some.injEq] at h
    subst h
    apply LobbyInv_addSystemMessageL
    have hbase : LobbyInv { l with players := l.players ++ [createPlayer pid (sanitizeName rawName) now] } :=
      LobbyInv_append_fresh l _ (not_mem_idsOf_of_find_none l pid hfresh) hInv
    split
    · exact LobbyInv_of_projections _ _ rfl rfl rfl hbase
    · exact hbase

theorem LobbyInv_startGameHandler (l : Lobby) (sid : String) (perm : List String)
    (now : Nat) (mid : String) (hperm : perm.Perm (idsOf l.players)) (h : LobbyInv l) :
    LobbyInv (startGameHandler l sid perm now mid).lobby := by
  unfold startGameHandler rejectWith
  split
  · exact h
  · split
    · exact h
    · split
      · exact h
      · rename_i hcount
        exact LobbyInv_startGameCore l perm now mid hperm h (by omega)

theorem LobbyInv_reachable (l : Lobby) (h : Reachable l) : LobbyInv l := by
  induction h with
  | createNode code sid name now mid =>
    constructor
    · rfl
    · simp [initialLobby, addSystemMessageL, idsOf, createPlayer]
  | createWorker code =>
    constructor
    · rfl
    · simp [workerInitialLobby, idsOf]
  | step l l' hr hs ih =>
    cases hs with
    | joinNode sid rawName now remMid joinMid k1 k2 l2 hfresh hjoin =>
      exact LobbyInv_nodeJoin l sid rawName now remMid joinMid k1 k2 _ hfresh hjoin ih
    | joinWorker pid rawName now mid l2 hfresh hjoin =>
      exact LobbyInv_workerJoin l pid rawName now mid _ hfresh hjoin ih
    | start sid perm now mid hperm =>
      exact LobbyInv_startGameHandler l sid perm now mid hperm ih
    | mainMsg sid rawText mid now =>
      obtain ⟨hp, hm, hg⟩ := sendMain_projections l sid rawText mid now
      exact LobbyInv_of_projections _ _ (by rw [hp]) hm hg ih
    | privMsg sid toId rawText mid now =>
      obtain ⟨hp, hm, hg⟩ := sendPrivate_projections l sid toId rawText mid now
      exact LobbyInv_of_projections _ _ (by rw [hp]) hm hg ih
    | kill sid targetId now =>
      obtain ⟨hp, hm, hg⟩ := mafiaKill_projections l sid targetId now
      exact LobbyInv_of_projections _ _ (by rw [hp]) hm hg ih
    | save sid targetId =>
      obtain ⟨hp, hm, hg⟩ := guardianSave_projections l sid targetId
      exact LobbyInv_of_projections _ _ (by rw [hp]) hm hg ih
    | finishNode now sumId sysId1 sysId2 =>
      obtain ⟨hp, hm, hg⟩ := finishNode_projections l now sumId sysId1 sysId2
      exact LobbyInv_of_projections _ _ hp hm hg ih
    | finishWorker now sumId sysId1 sysId2 =>
      obtain ⟨hp, hm, hg⟩ := finishWorker_projections l now sumId sysId1 sysId2
      exact LobbyInv_of_projections _ _ hp hm hg ih
    | leaveNode sid now mid k1 k2 l2 hrem =>
      exact LobbyInv_removeFromLobby l sid now mid k1 k2 _ ih hrem
    | leaveWorker sid reasonText now mid k1 k2 l2 hrem =>
      exact LobbyInv_workerRemoveFromLobby l sid reasonText now mid k1 k2 _ ih hrem

/-!
## Concrete room states used by witnesses and counterexamples
-/

/-- A 4-player mid-round room. -/
def gameLobby : Lobby :=
  { code := "AAAAA", hostId := some "A",
    players := [⟨"A", "Ann", Role.mafia, true, 0, none⟩,
                ⟨"B", "Bob", Role.guardian, true, 0, none⟩,
                ⟨"C", "Cid", Role.villager, true, 0, none⟩,
                ⟨"D", "Dee", Role.villager, true, 0, none⟩],
    phase := Phase.inRound, winner := none, roundNumber := 1,
    roundEndsAt := some 120000, lastMafiaActionAt := 0, mafiaKillRound := 0,
    mafiaId := some "A", guardianId := some "B", pendingKillId := none,
    pendingSaveId := none, mainMessages := [], dmThreads := [], history := [] }

/-- A room whose Mafia is dead while only one non-Mafia player is alive. -/
def deadMafiaLobby : Lobby :=
  { code := "AAAAA", hostId := some "B",
    players := [⟨"A", "Ann", Role.mafia, false, 0, some 5⟩,
                ⟨"B", "Bob", Role.villager, true, 0, none⟩],
    phase := Phase.ended, winner := some "Villagers", roundNumber := 3,
    roundEndsAt := none, lastMafiaActionAt := 0, mafiaKillRound := 0,
    mafiaId := some "A", guardianId := none, pendingKillId := none,
    pendingSaveId := none, mainMessages := [], dmThreads := [], history := [] }

/-- A mid-round room whose pending kill names a player no longer present. -/
def stalePendingLobby : Lobby :=
  { gameLobby with pendingKillId := some "X" }

/-!
## C1 — winner evaluation
-/

/-- C1 counterexample: with the Mafia dead and exactly one alive
non-Mafia player, `winnerForLobby` returns Villagers, not Mafia as the
claim requires ("regardless of whether the Mafia is also dead or
absent"). -/
theorem c1_counterexample :
    deadMafiaLobby.players ≠ [] ∧ aliveNonMafiaCount deadMafiaLobby ≤ 1 ∧
    winnerForLobby deadMafiaLobby = some "Villagers" ∧
    winnerForLobby deadMafiaLobby ≠ some "Mafia" := by
  decide

/-- C1 (amended): the Villagers check takes precedence — if the Mafia is
dead or absent the winner is Villagers; only otherwise does an alive
non-Mafia count of at most 1 make the winner Mafia; with an alive,
present Mafia and at least two alive non-Mafia players there is no
winner. -/
theorem c1_amended (l : Lobby) (hne : l.players ≠ []) :
    ((lookupOpt l l.mafiaId).any (fun p => p.isAlive) = false →
        winnerForLobby l = some "Villagers") ∧
    ((lookupOpt l l.mafiaId).any (fun p => p.isAlive) = true →
        aliveNonMafiaCount l ≤ 1 → winnerForLobby l = some "Mafia") ∧
    ((lookupOpt l l.mafiaId).any (fun p => p.isAlive) = true →
        1 < aliveNonMafiaCount l → winnerForLobby l = none) := by
  unfold winnerForLobby
  cases h : lookupOpt l l.mafiaId with
  | none => simp
  | some mafia =>
    by_cases ha : mafia.isAlive <;> by_cases hc : aliveNonMafiaCount l ≤ 1 <;>
      simp [ha, hc] <;> omega

/-- C1 amended witness at a concrete room. -/
theorem c1_amended_witness : winnerForLobby deadMafiaLobby = some "Villagers" :=
  (c1_amended deadMafiaLobby (by decide)).1 (by decide)

/-!
## C3 — summary records the re-validated pending ids
-/

/-- A pending id survives `revalidate` exactly as itself. -/
theorem revalidate_eq_some (l : Lobby) (o : Option String) (x : String)
    (h : revalidate l o = some x) : o = some x := by
  unfold revalidate at h
  cases o with
  | none => exact absurd h (by simp)
  | some y =>
    by_cases hy : aliveB l y = true
    · simpa [hy] using h
    · simp [hy] at h

/-- C3 counterexample: resolution of a round whose pending-kill target
has left the roster records `killedId = null` in the summary, not the
pending-kill id stored in the room state when resolution started. -/
theorem c3_counterexample :
    stalePendingLobby.pendingKillId = some "X" ∧
    ((nodeFinishRound stalePendingLobby 0 "s" "m1" "m2").2).map RoundSummary.killedId =
      some none ∧
    ((nodeFinishRound stalePendingLobby 0 "s" "m1" "m2").2).map RoundSummary.killedId ≠
      some stalePendingLobby.pendingKillId := by
  decide

/-- C3 (amended): the summary's killedId/savedId fields equal the
pending ids after the liveness re-validation (the pending id when its
target is still present and alive, null otherwise); they are computed
from the pre-resolution room state and are unaffected by the elimination
resolution then performs. Holds for both backend variants. -/
theorem c3_amended (l : Lobby) (now : Nat) (sumId s1 s2 : String)
    (hph : l.phase = Phase.inRound) :
    (∃ s, (nodeFinishRound l now sumId s1 s2).2 = some s ∧
       (nodeFinishRound l now sumId s1 s2).1.history = l.history ++ [s] ∧
       s.killedId = revalidate l l.pendingKillId ∧
       s.savedId = revalidate l l.pendingSaveId) ∧
    (∃ s, (workerFinishRound l now sumId s1 s2).2 = some s ∧
       (workerFinishRound l now sumId s1 s2).1.history = l.history ++ [s] ∧
       s.killedId = revalidate l l.pendingKillId ∧
       s.savedId = revalidate l l.pendingSaveId) := by
  constructor
  · obtain ⟨h1, h2⟩ := nodeFinishRound_resolve l now sumId s1 s2 hph
    refine ⟨nodeSummary l now sumId, h2, ?_, rfl, rfl⟩
    rw [h1]
    obtain ⟨_, _, _, hh, _⟩ := finishWrap_projections _ now s2
    rw [hh]
    rfl
  · obtain ⟨h1, h2⟩ := workerFinishRound_resolve l now sumId s1 s2 hph
    refine ⟨workerSummary l now sumId, h2, ?_, rfl, rfl⟩
    rw [h1]
    obtain ⟨_, _, _, hh, _⟩ := finishWrap_projections _ now s2
    rw [hh]
    rfl

/-- C3 amended witness at a concrete room. -/
theorem c3_amended_witness :
    ∃ s, (nodeFinishRound stalePendingLobby 0 "s" "m1" "m2").2 = some s ∧
      (nodeFinishRound stalePendingLobby 0 "s" "m1" "m2").1.history =
        stalePendingLobby.history ++ [s] ∧
      s.killedId = revalidate stalePendingLobby stalePendingLobby.pendingKillId ∧
      s.savedId = revalidate stalePendingLobby stalePendingLobby.pendingSaveId :=
  (c3_amended stalePendingLobby 0 "s" "m1" "m2" (by decide)).1

/-!
## C7 — bounded FIFO message logs
-/

theorem dmGet_dmSet (threads : List ((String × String) × List Message))
    (key : String × String) (v : List Message) : dmGet (dmSet threads key v) key = v := by
  induction threads with
  | nil => simp [dmGet, dmSet]
  | cons kv t ih =>
    by_cases h : (kv.1 == key) = true
    · simp only [dmSet, List.any_cons, h, Bool.true_or, if_true, List.map_cons, if_pos h]
      simp only [dmGet]
      rw [List.find?_cons_of_pos _ (by simp)]
    · by_cases h2 : (t.any (fun kv => kv.1 == key)) = true
      · simp only [dmGet, dmSet, List.any_cons, h, Bool.false_or, h2, if_true,
          List.map_cons, List.find?, if_false] at ih ⊢
        simpa [h] using ih
      · simp only [dmGet, dmSet, List.any_cons, h, Bool.false_or, h2, if_false,
          List.cons_append, List.find?] at ih ⊢
        simpa [h] using ih

theorem pushCapped_spec (cap : Nat) (msgs : List Message) (m : Message)
    (hpos : 0 < cap) (hcap : msgs.length ≤ cap) :
    (if cap < (msgs ++ [m]).length then (msgs ++ [m]).drop 1 else msgs ++ [m]).length ≤ cap ∧
    (msgs.length < cap →
      (if cap < (msgs ++ [m]).length then (msgs ++ [m]).drop 1 else msgs ++ [m]) =
        msgs ++ [m]) ∧
    (msgs.length = cap →
      (if cap < (msgs ++ [m]).length then (msgs ++ [m]).drop 1 else msgs ++ [m]) =
        msgs.tail ++ [m]) := by
  have hlen : (msgs ++ [m]).length = msgs.length + 1 := by simp
  refine ⟨?_, ?_, ?_⟩
  · split
    · simp only [List.length_drop, hlen]
      omega
    · rename_i hc
      omega
  · intro hlt
    rw [if_neg (by omega)]
  · intro heq
    rw [if_pos (by omega), List.drop_append_of_le_length (by omega), List.drop_one]

/-- C7: each append to the shared public log and to a per-pair DM thread
preserves the cap (200 public, 120 per pair); an append below the cap
keeps all entries in FIFO order, and an append at the cap evicts exactly
the oldest entry. -/
theorem c7_message_caps (l : Lobby) (sender recipient : Player) (text mid : String)
    (now : Nat) :
    (l.mainMessages.length ≤ MAX_MAIN_MESSAGES →
      (addMainMessageL l sender text mid now).mainMessages.length ≤ MAX_MAIN_MESSAGES ∧
      (l.mainMessages.length < MAX_MAIN_MESSAGES →
        (addMainMessageL l sender text mid now).mainMessages =
          l.mainMessages ++
            [Message.mk mid MsgKind.chat (some sender.id) sender.name none text now]) ∧
      (l.mainMessages.length = MAX_MAIN_MESSAGES →
        (addMainMessageL l sender text mid now).mainMessages =
          l.mainMessages.tail ++
            [Message.mk mid MsgKind.chat (some sender.id) sender.name none text now])) ∧
    ((dmGet l.dmThreads (sortedPairKey sender.id recipient.id)).length ≤ MAX_DM_MESSAGES →
      (dmGet (addDmMessageL l sender recipient text mid now).dmThreads
          (sortedPairKey sender.id recipient.id)).length ≤ MAX_DM_MESSAGES ∧
      ((dmGet l.dmThreads (sortedPairKey sender.id recipient.id)).length < MAX_DM_MESSAGES →
        dmGet (addDmMessageL l sender recipient text mid now).dmThreads
            (sortedPairKey sender.id recipient.id) =
          dmGet l.dmThreads (sortedPairKey sender.id recipient.id) ++
            [Message.mk mid MsgKind.chat (some sender.id) sender.name (some recipient.id)
              text now]) ∧
      ((dmGet l.dmThreads (sortedPairKey sender.id recipient.id)).length = MAX_DM_MESSAGES →
        dmGet (addDmMessageL l sender recipient text mid now).dmThreads
            (sortedPairKey sender.id recipient.id) =
          (dmGet l.dmThreads (sortedPairKey sender.id recipient.id)).tail ++
            [Message.mk mid MsgKind.chat (some sender.id) sender.name (some recipient.id)
              text now])) := by
  constructor
  · intro hcap
    exact pushCapped_spec MAX_MAIN_MESSAGES l.mainMessages _ (by decide) hcap
  · intro hcap
    unfold addDmMessageL
    rw [dmGet_dmSet]
    exact pushCapped_spec MAX_DM_MESSAGES _ _ (by decide) hcap

/-- C7 witness: appending to an empty room's logs. -/
theorem c7_witness :
    (addMainMessageL gameLobby ⟨"A", "Ann", Role.mafia, true, 0, none⟩ "hi" "m9" 7).mainMessages =
      gameLobby.mainMessages ++
        [Message.mk "m9" MsgKind.chat (some "A") "Ann" none "hi" 7] :=
  ((c7_message_caps gameLobby ⟨"A", "Ann", Role.mafia, true, 0, none⟩
      ⟨"B", "Bob", Role.guardian, true, 0, none⟩ "hi" "m9" 7).1 (by decide)).2.1 (by decide)

/-!
## C5 — one kill per round
-/

theorem mafiaKill_gate_rejects (l : Lobby) (a t : String) (now : Nat)
    (hstamp : l.mafiaKillRound = l.roundNumber) :
    (mafiaKillHandler l a t now).ok = false ∧ (mafiaKillHandler l a t now).lobby = l := by
  unfold mafiaKillHandler rejectWith
  repeat' split
  all_goals first
    | exact ⟨rfl, rfl⟩
    | exact absurd hstamp (by assumption)

theorem mafiaKill_success_shape (l : Lobby) (a t : String) (now : Nat)
    (h : (mafiaKillHandler l a t now).ok = true) :
    (mafiaKillHandler l a t now).lobby =
      { l with pendingKillId := some t, lastMafiaActionAt := now,
               mafiaKillRound := l.roundNumber } := by
  unfold mafiaKillHandler rejectWith at h ⊢
  repeat' split at h <;> try rfl
  all_goals simp_all

/-- C5: once the kill-round stamp equals the current round number —
which every successful `mafia_kill` makes true without changing the
round number — every `mafia_kill` in that room is rejected with
`ok:false` and leaves the state unchanged, whatever its actor, target
and time; in particular a second kill right after a successful one is
rejected. -/
theorem c5_one_kill_per_round (l : Lobby) (a t a2 t2 : String) (now now2 : Nat) :
    (l.mafiaKillRound = l.roundNumber →
      (mafiaKillHandler l a t now).ok = false ∧ (mafiaKillHandler l a t now).lobby = l) ∧
    ((mafiaKillHandler l a t now).ok = true →
      (mafiaKillHandler l a t now).lobby.mafiaKillRound =
        (mafiaKillHandler l a t now).lobby.roundNumber ∧
      (mafiaKillHandler l a t now).lobby.roundNumber = l.roundNumber ∧
      (mafiaKillHandler (mafiaKillHandler l a t now).lobby a2 t2 now2).ok = false ∧
      (mafiaKillHandler (mafiaKillHandler l a t now).lobby a2 t2 now2).lobby =
        (mafiaKillHandler l a t now).lobby) := by
  constructor
  · intro hstamp
    exact mafiaKill_gate_rejects l a t now hstamp
  · intro hok
    rw [mafiaKill_success_shape l a t now hok]
    refine ⟨rfl, rfl, ?_⟩
    exact mafiaKill_gate_rejects _ a2 t2 now2 rfl

/-- C5 witness: a successful kill, then a rejected second kill at a
different target. -/
theorem c5_witness :
    (mafiaKillHandler (mafiaKillHandler gameLobby "A" "C" 100000).lobby "A" "D" 200000).ok =
      false :=
  ((c5_one_kill_per_round gameLobby "A" "C" "A" "D" 100000 200000).2 (by decide)).2.2.1

/-!
## C6 — role id invariant over all reachable states
-/

/-- C6: in every room state reachable by any sequence of engine
operations (creation, joins, game start, kills, saves, round
resolutions, departures, in either backend variant), each non-null
special-role id names a player present in the roster, and the mafia and
guardian ids are distinct whenever both are set. -/
theorem c6_roles_invariant (l : Lobby) (h : Reachable l) : rolesOK l = true :=
  (LobbyInv_reachable l h).1

/-- C6 witness: the invariant evaluated at a freshly created room. -/
theorem c6_witness : rolesOK (initialLobby "AAAAA" "A" "Ann" 0 "m0") = true :=
  c6_roles_invariant _ (Reachable.createNode "AAAAA" "A" "Ann" 0 "m0")

/-!
## C2 — kill/save resolution
-/

theorem players_addSystemMessageL (l : Lobby) (t mid : String) (now : Nat) :
    (addSystemMessageL l t mid now).players = l.players := rfl

theorem aliveB_congr (p q : Lobby) (h : p.players = q.players) (x : String) :
    aliveB p x = aliveB q x := by
  unfold aliveB playerById
  rw [h]

theorem aliveB_elim (l : Lobby) (k : String) (hal : aliveB l k = true) :
    ∃ p, playerById l k = some p ∧ p.isAlive = true := by
  unfold aliveB at hal
  cases hf : playerById l k with
  | none => rw [hf] at hal; simp at hal
  | some p =>
    rw [hf] at hal
    exact ⟨p, rfl, by simpa using hal⟩

theorem aliveIn_eliminate_self (ps : List Player) (k : String) (now : Nat) :
    (findPlayer (eliminatePlayers ps k now) k).any (fun p => p.isAlive) = false := by
  induction ps with
  | nil => rfl
  | cons p t ih =>
    by_cases h : (p.id == k) = true
    · have h' : p.id = k := by simpa using h
      rw [show eliminatePlayers (p :: t) k now =
          ({ p with isAlive := false, eliminatedAt := some now } ::
            eliminatePlayers t k now) from by simp [eliminatePlayers, h']]
      unfold findPlayer
      rw [List.find?_cons_of_pos _ (by simpa using h)]
      rfl
    · have h' : ¬ p.id = k := by simpa using h
      rw [show eliminatePlayers (p :: t) k now = (p :: eliminatePlayers t k now) from by
        simp [eliminatePlayers, h']]
      unfold findPlayer
      rw [List.find?_cons_of_neg _ (by simpa using h)]
      exact ih

theorem revalidate_of_alive (l : Lobby) (o : Option String) (k : String)
    (ho : o = some k) (hal : aliveB l k = true) : revalidate l o = some k := by
  subst ho
  simp [revalidate, hal]

theorem nodeOutcome_saved (l : Lobby) (now : Nat) (k : String)
    (hk : l.pendingKillId = some k) (hs : l.pendingSaveId = some k)
    (hal : aliveB l k = true) :
    nodeOutcome l now = (l.players, none, some k) := by
  unfold nodeOutcome
  rw [revalidate_of_alive l _ k hk hal, revalidate_of_alive l _ k hs hal]
  simp

theorem workerOutcome_saved (l : Lobby) (now : Nat) (k : String)
    (hk : l.pendingKillId = some k) (hs : l.pendingSaveId = some k)
    (hal : aliveB l k = true) :
    workerOutcome l now = (l.players, none, some k) := by
  unfold workerOutcome
  rw [revalidate_of_alive l _ k hk hal, revalidate_of_alive l _ k hs hal]
  simp

theorem nodeOutcome_killed (l : Lobby) (now : Nat) (k : String)
    (hk : l.pendingKillId = some k) (hal : aliveB l k = true)
    (hne : l.pendingSaveId ≠ some k) :
    nodeOutcome l now = (eliminatePlayers l.players k now, some k, none) := by
  obtain ⟨p, hp, hpa⟩ := aliveB_elim l k hal
  have hs' : revalidate l l.pendingSaveId ≠ some k :=
    fun hc => hne (revalidate_eq_some l _ k hc)
  unfold nodeOutcome
  rw [revalidate_of_alive l _ k hk hal]
  simp [hs', hp, hpa]

theorem workerOutcome_killed (l : Lobby) (now : Nat) (k : String)
    (hk : l.pendingKillId = some k) (hal : aliveB l k = true)
    (hne : l.pendingSaveId ≠ some k) :
    workerOutcome l now = (eliminatePlayers l.players k now, some k, none) := by
  obtain ⟨p, hp, hpa⟩ := aliveB_elim l k hal
  have hs' : ¬ ((revalidate l l.pendingSaveId).isSome ∧
      revalidate l l.pendingSaveId = some k) :=
    fun hc => hne (revalidate_eq_some l _ k hc.2)
  unfold workerOutcome
  rw [revalidate_of_alive l _ k hk hal]
  simp only [if_neg hs']
  simp [hp, hpa]

theorem nodeFinishRound_players (l : Lobby) (now : Nat) (sumId s1 s2 : String)
    (hph : l.phase = Phase.inRound) :
    (nodeFinishRound l now sumId s1 s2).1.players = (nodeOutcome l now).1 := by
  obtain ⟨h1, _⟩ := nodeFinishRound_resolve l now sumId s1 s2 hph
  rw [h1, (finishWrap_projections _ now s2).1, players_addSystemMessageL]
  rfl

theorem workerFinishRound_players (l : Lobby) (now : Nat) (sumId s1 s2 : String)
    (hph : l.phase = Phase.inRound) :
    (workerFinishRound l now sumId s1 s2).1.players = (workerOutcome l now).1 := by
  obtain ⟨h1, _⟩ := workerFinishRound_resolve l now sumId s1 s2 hph
  rw [h1, (finishWrap_projections _ now s2).1, players_addSystemMessageL]
  rfl

theorem nodeFinishRound_history (l : Lobby) (now : Nat) (sumId s1 s2 : String)
    (hph : l.phase = Phase.inRound) :
    (nodeFinishRound l now sumId s1 s2).1.history =
      l.history ++ [nodeSummary l now sumId] := by
  obtain ⟨h1, _⟩ := nodeFinishRound_resolve l now sumId s1 s2 hph
  rw [h1, (finishWrap_projections _ now s2).2.2.2.1]
  rfl

theorem workerFinishRound_history (l : Lobby) (now : Nat) (sumId s1 s2 : String)
    (hph : l.phase = Phase.inRound) :
    (workerFinishRound l now sumId s1 s2).1.history =
      l.history ++ [workerSummary l now sumId] := by
  obtain ⟨h1, _⟩ := workerFinishRound_resolve l now sumId s1 s2 hph
  rw [h1, (finishWrap_projections _ now s2).2.2.2.1]
  rfl

/-- C2: at resolution of a live round, (a) if the pending kill and
pending save both name the same alive target, that target's alive flag
is untouched and the appended summary records survived-by-save with no
elimination; (b) otherwise, a pending kill whose target is alive
eliminates that target and the summary records the elimination with no
survived-by-save. Proved for both backend variants. -/
theorem c2_round_resolution (l : Lobby) (now : Nat) (sumId s1 s2 : String)
    (hph : l.phase = Phase.inRound) :
    (∀ k, l.pendingKillId = some k → l.pendingSaveId = some k → aliveB l k = true →
      (nodeFinishRound l now sumId s1 s2).2 = some (nodeSummary l now sumId) ∧
      (nodeFinishRound l now sumId s1 s2).1.history =
        l.history ++ [nodeSummary l now sumId] ∧
      aliveB (nodeFinishRound l now sumId s1 s2).1 k = true ∧
      (nodeSummary l now sumId).survivedBySaveId = some k ∧
      (nodeSummary l now sumId).eliminatedId = none) ∧
    (∀ k, l.pendingKillId = some k → aliveB l k = true → l.pendingSaveId ≠ some k →
      (nodeFinishRound l now sumId s1 s2).2 = some (nodeSummary l now sumId) ∧
      (nodeFinishRound l now sumId s1 s2).1.history =
        l.history ++ [nodeSummary l now sumId] ∧
      aliveB (nodeFinishRound l now sumId s1 s2).1 k = false ∧
      (nodeSummary l now sumId).eliminatedId = some k ∧
      (nodeSummary l now sumId).survivedBySaveId = none) ∧
    (∀ k, l.pendingKillId = some k → l.pendingSaveId = some k → aliveB l k = true →
      (workerFinishRound l now sumId s1 s2).2 = some (workerSummary l now sumId) ∧
      aliveB (workerFinishRound l now sumId s1 s2).1 k = true ∧
      (workerSummary l now sumId).survivedBySaveId = some k ∧
      (workerSummary l now sumId).eliminatedId = none) ∧
    (∀ k, l.pendingKillId = some k → aliveB l k = true → l.pendingSaveId ≠ some k →
      (workerFinishRound l now sumId s1 s2).2 = some (workerSummary l now sumId) ∧
      aliveB (workerFinishRound l now sumId s1 s2).1 k = false ∧
      (workerSummary l now sumId).eliminatedId = some k ∧
      (workerSummary l now sumId).survivedBySaveId = none) := by
  refine ⟨?_, ?_, ?_, ?_⟩
  · intro k hk hs hal
    have hout := nodeOutcome_saved l now k hk hs hal
    refine ⟨(nodeFinishRound_resolve l now sumId s1 s2 hph).2,
      nodeFinishRound_history l now sumId s1 s2 hph, ?_, ?_, ?_⟩
    · rw [aliveB_congr (nodeFinishRound l now sumId s1 s2).1 l
        (by rw [nodeFinishRound_players l now sumId s1 s2 hph, hout]) k]
      exact hal
    · simp [nodeSummary, hout]
    · simp [nodeSummary, hout]
  · intro k hk hal hne
    have hout := nodeOutcome_killed l now k hk hal hne
    refine ⟨(nodeFinishRound_resolve l now sumId s1 s2 hph).2,
      nodeFinishRound_history l now sumId s1 s2 hph, ?_, ?_, ?_⟩
    · unfold aliveB playerById
      rw [nodeFinishRound_players l now sumId s1 s2 hph, hout]
      exact aliveIn_eliminate_self l.players k now
    · simp [nodeSummary, hout]
    · simp [nodeSummary, hout]
  · intro k hk hs hal
    have hout := workerOutcome_saved l now k hk hs hal
    refine ⟨(workerFinishRound_resolve l now sumId s1 s2 hph).2, ?_, ?_, ?_⟩
    · rw [aliveB_congr (workerFinishRound l now sumId s1 s2).1 l
        (by rw [workerFinishRound_players l now sumId s1 s2 hph, hout]) k]
      exact hal
    · simp [workerSummary, hout]
    · simp [workerSummary, hout]
  · intro k hk hal hne
    have hout := workerOutcome_killed l now k hk hal hne
    refine ⟨(workerFinishRound_resolve l now sumId s1 s2 hph).2, ?_, ?_, ?_⟩
    · unfold aliveB playerById
      rw [workerFinishRound_players l now sumId s1 s2 hph, hout]
      exact aliveIn_eliminate_self l.players k now
    · simp [workerSummary, hout]
    · simp [workerSummary, hout]

/-- C2 witness: a same-target kill and save leave the target alive. -/
theorem c2_witness :
    aliveB (nodeFinishRound
      { gameLobby with pendingKillId := some "C", pendingSaveId := some "C" }
      120000 "s" "m1" "m2").1 "C" = true :=
  (((c2_round_resolution
      { gameLobby with pendingKillId := some "C", pendingSaveId := some "C" }
      120000 "s" "m1" "m2" (by decide)).1 "C" (by decide) (by decide) (by decide))).2.2.1

/-!
## C10 — the two variants agree on the next-round kill gate
-/

theorem mafiaKillRound_addSystemMessageL (l : Lobby) (t mid : String) (now : Nat) :
    (addSystemMessageL l t mid now).mafiaKillRound = l.mafiaKillRound := rfl

theorem roundNumber_addSystemMessageL (l : Lobby) (t mid : String) (now : Nat) :
    (addSystemMessageL l t mid now).roundNumber = l.roundNumber := rfl

theorem nodeAfterResolve_mafiaKillRound (l : Lobby) (now : Nat) (sumId : String) :
    (nodeAfterResolve l now sumId).mafiaKillRound = l.mafiaKillRound := rfl

theorem nodeAfterResolve_roundNumber (l : Lobby) (now : Nat) (sumId : String) :
    (nodeAfterResolve l now sumId).roundNumber = l.roundNumber := rfl

theorem workerAfterResolve_mafiaKillRound (l : Lobby) (now : Nat) (sumId : String) :
    (workerAfterResolve l now sumId).mafiaKillRound = 0 := rfl

theorem workerAfterResolve_roundNumber (l : Lobby) (now : Nat) (sumId : String) :
    (workerAfterResolve l now sumId).roundNumber = l.roundNumber := rfl

theorem finishWrap_cases (l2 : Lobby) (now : Nat) (s2 : String) :
    (finishWrap l2 now s2).phase = Phase.ended ∨
    (winnerForLobby l2 = none ∧ finishWrap l2 now s2 =
      { l2 with roundNumber := l2.roundNumber + 1,
                roundEndsAt := some (now + ROUND_DURATION_MS) }) := by
  unfold finishWrap
  cases winnerForLobby l2 with
  | some w => exact Or.inl rfl
  | none => exact Or.inr ⟨rfl, rfl⟩

/-- C10: after a round resolves with no winner, the Node variant leaves
the kill-round stamp at the just-finished round number while the Worker
variant resets it to 0; in both variants the stamp differs from the new
round number, so the per-round gate (`mafiaKillRound === roundNumber`)
does not block the next round's kill, and the `mafiaKillUsedThisRound`
flag computed for any viewer — in particular the flag in the Mafia's
snapshot — is false. -/
theorem c10_kill_gate_equivalence (l : Lobby) (now now2 : Nat) (sumId s1 s2 v : String)
    (hph : l.phase = Phase.inRound) (hstamp : l.mafiaKillRound ≤ l.roundNumber) :
    ((nodeFinishRound l now sumId s1 s2).1.mafiaKillRound = l.mafiaKillRound) ∧
    ((workerFinishRound l now sumId s1 s2).1.mafiaKillRound = 0) ∧
    ((nodeFinishRound l now sumId s1 s2).1.phase = Phase.inRound →
      (nodeFinishRound l now sumId s1 s2).1.mafiaKillRound ≠
        (nodeFinishRound l now sumId s1 s2).1.roundNumber ∧
      killUsedThisRound (nodeFinishRound l now sumId s1 s2).1 v = false ∧
      ∀ st, buildStateForViewer (nodeFinishRound l now sumId s1 s2).1 v now2 = some st →
        st.mafiaKillUsedThisRound = false) ∧
    ((workerFinishRound l now sumId s1 s2).1.phase = Phase.inRound →
      (workerFinishRound l now sumId s1 s2).1.mafiaKillRound ≠
        (workerFinishRound l now sumId s1 s2).1.roundNumber ∧
      killUsedThisRound (workerFinishRound l now sumId s1 s2).1 v = false) := by
  have hn1 := (nodeFinishRound_resolve l now sumId s1 s2 hph).1
  have hw1 := (workerFinishRound_resolve l now sumId s1 s2 hph).1
  refine ⟨?_, ?_, ?_, ?_⟩
  · rw [hn1, (finishWrap_projections _ now s2).2.2.2.2]
    rfl
  · rw [hw1, (finishWrap_projections _ now s2).2.2.2.2]
    rfl
  · intro hin
    rw [hn1] at hin ⊢
    rcases finishWrap_cases _ now s2 with hend | ⟨hw, heq⟩
    · rw [hin] at hend
      exact absurd hend (by decide)
    · rw [heq] at hin ⊢
      have hstampEq : ({ (addSystemMessageL (nodeAfterResolve l now sumId)
          (roundEndMessage (nodeAfterResolve l now sumId)
            (nodeSummary l now sumId).killedId (nodeSummary l now sumId).savedId
            "No one" (nodeSummary l now sumId).round) s1 now) with
          roundNumber := (addSystemMessageL (nodeAfterResolve l now sumId)
            (roundEndMessage (nodeAfterResolve l now sumId)
              (nodeSummary l now sumId).killedId (nodeSummary l now sumId).savedId
              "No one" (nodeSummary l now sumId).round) s1 now).roundNumber + 1,
          roundEndsAt := some (now + ROUND_DURATION_MS) } : Lobby).mafiaKillRound =
          l.mafiaKillRound := rfl
      have hne : l.mafiaKillRound ≠ l.roundNumber + 1 := by omega
      have hkill : killUsedThisRound ({ (addSystemMessageL (nodeAfterResolve l now sumId)
          (roundEndMessage (nodeAfterResolve l now sumId)
            (nodeSummary l now sumId).killedId (nodeSummary l now sumId).savedId
            "No one" (nodeSummary l now sumId).round) s1 now) with
          roundNumber := (addSystemMessageL (nodeAfterResolve l now sumId)
            (roundEndMessage (nodeAfterResolve l now sumId)
              (nodeSummary l now sumId).killedId (nodeSummary l now sumId).savedId
              "No one" (nodeSummary l now sumId).round) s1 now).roundNumber + 1,
          roundEndsAt := some (now + ROUND_DURATION_MS) } : Lobby) v = false := by
        simp [killUsedThisRound, mafiaKillRound_addSystemMessageL,
          roundNumber_addSystemMessageL, nodeAfterResolve_mafiaKillRound,
          nodeAfterResolve_roundNumber, hne]
      refine ⟨by exact hne, hkill, ?_⟩
      intro st hst
      unfold buildStateForViewer at hst
      cases hf : playerById _ v with
      | none => rw [hf] at hst; exact absurd hst (by simp)
      | some p =>
        rw [hf] at hst
        rw [Option.some.injEq] at hst
        subst hst
        exact hkill
  · intro hin
    rw [hw1] at hin ⊢
    rcases finishWrap_cases _ now s2 with hend | ⟨hw, heq⟩
    · rw [hin] at hend
      exact absurd hend (by decide)
    · rw [heq] at hin ⊢
      have hne : (0 : Nat) ≠ l.roundNumber + 1 := by omega
      refine ⟨by exact hne, ?_⟩
      simp [killUsedThisRound, mafiaKillRound_addSystemMessageL,
        roundNumber_addSystemMessageL, workerAfterResolve_mafiaKillRound,
        workerAfterResolve_roundNumber]

/-- C10 witness: a concrete round resolution with no winner. -/
theorem c10_witness :
    (nodeFinishRound gameLobby 120000 "s" "m1" "m2").1.mafiaKillRound ≠
      (nodeFinishRound gameLobby 120000 "s" "m1" "m2").1.roundNumber :=
  ((c10_kill_gate_equivalence gameLobby 120000 0 "s" "m1" "m2" "A" (by decide)
      (by decide)).2.2.1 (by decide)).1

/-!
## C9 — pending action ids are role-gated
-/

theorem playerById_id (l : Lobby) (v : String) (p : Player)
    (h : playerById l v = some p) : p.id = v := by
  unfold playerById findPlayer at h
  have := List.find?_some h
  simpa using this

/-- C9: a snapshot's `pendingKillId` is null unless the viewer is the
Mafia and its `pendingSaveId` is null unless the viewer is the Guardian;
moreover, for a non-Mafia viewer the snapshot is a function of the room
state with the pending-kill id erased — two rooms differing only in
`pendingKillId` yield identical snapshots (and symmetrically for the
Guardian and `pendingSaveId`), even when reveal is active. -/
theorem c9_pending_ids_hidden (l : Lobby) (v : String) (now : Nat) (x : Option String) :
    (∀ st, buildStateForViewer l v now = some st →
      (st.pendingKillId ≠ none → some v = l.mafiaId) ∧
      (st.pendingSaveId ≠ none → some v = l.guardianId)) ∧
    (some v ≠ l.mafiaId →
      buildStateForViewer { l with pendingKillId := x } v now =
        buildStateForViewer l v now) ∧
    (some v ≠ l.guardianId →
      buildStateForViewer { l with pendingSaveId := x } v now =
        buildStateForViewer l v now) := by
  refine ⟨?_, ?_, ?_⟩
  · intro st hst
    unfold buildStateForViewer at hst
    cases hf : playerById l v with
    | none => rw [hf] at hst; exact absurd hst (by simp)
    | some p =>
      have hid : p.id = v := playerById_id l v p hf
      rw [hf] at hst
      rw [Option.some.injEq] at hst
      subst hst
      constructor
      · intro hk
        by_cases hm : some v = l.mafiaId
        · exact hm
        · exfalso
          apply hk
          dsimp only
          rw [hid]
          exact if_neg hm
      · intro hk
        by_cases hg : some v = l.guardianId
        · exact hg
        · exfalso
          apply hk
          dsimp only
          rw [hid]
          exact if_neg hg
  · intro hm
    unfold buildStateForViewer
    have hpl : playerById { l with pendingKillId := x } v = playerById l v := rfl
    rw [hpl]
    cases hf : playerById l v with
    | none => rfl
    | some p =>
      have hid : p.id = v := playerById_id l v p hf
      rw [Option.some.injEq]
      rw [show (({ l with pendingKillId := x } : Lobby)).mafiaId = l.mafiaId from rfl]
      rw [hid, if_neg hm]
      simp only [ViewState.mk.injEq]
      repeat' apply And.intro
      all_goals first
        | trivial
        | exact (if_neg hm).symm
  · intro hg
    unfold buildStateForViewer
    have hpl : playerById { l with pendingSaveId := x } v = playerById l v := rfl
    rw [hpl]
    cases hf : playerById l v with
    | none => rfl
    | some p =>
      have hid : p.id = v := playerById_id l v p hf
      rw [Option.some.injEq]
      rw [show (({ l with pendingSaveId := x } : Lobby)).guardianId = l.guardianId from rfl]
      rw [hid, if_neg hg]
      simp only [ViewState.mk.injEq]
      repeat' apply And.intro
      all_goals first
        | trivial
        | exact (if_neg hg).symm

/-- C9 witness: a villager's snapshot is unchanged by the pending kill. -/
theorem c9_witness :
    buildStateForViewer { gameLobby with pendingKillId := some "D" } "C" 5 =
      buildStateForViewer gameLobby "C" 5 :=
  (c9_pending_ids_hidden gameLobby "C" 5 (some "D")).2.1 (by decide)

/-!
## C4 — reveal rules of the per-viewer snapshot
-/

theorem mem_insertPlayerView (pv x : PlayerView) (xs : List PlayerView)
    (h : x ∈ insertPlayerView pv xs) : x = pv ∨ x ∈ xs := by
  induction xs with
  | nil => simpa [insertPlayerView] using h
  | cons y ys ih =>
    unfold insertPlayerView at h
    by_cases hc : strLt pv.name y.name = true
    · rw [if_pos hc] at h
      simpa using h
    · rw [if_neg hc] at h
      rcases List.mem_cons.mp h with h1 | h2
      · exact Or.inr (List.mem_cons.mpr (Or.inl h1))
      · rcases ih h2 with h3 | h4
        · exact Or.inl h3
        · exact Or.inr (List.mem_cons.mpr (Or.inr h4))

theorem mem_foldl_insert (xs : List PlayerView) :
    ∀ (acc : List PlayerView) (x : PlayerView),
      x ∈ xs.foldl (fun acc pv => insertPlayerView pv acc) acc → x ∈ acc ∨ x ∈ xs := by
  induction xs with
  | nil => intro acc x h; exact Or.inl h
  | cons pv t ih =>
    intro acc x h
    rcases ih (insertPlayerView pv acc) x h with h1 | h2
    · rcases mem_insertPlayerView pv x acc h1 with h3 | h4
      · exact Or.inr (List.mem_cons.mpr (Or.inl h3))
      · exact Or.inl h4
    · exact Or.inr (List.mem_cons.mpr (Or.inr h2))

theorem mem_sortByName (xs : List PlayerView) (x : PlayerView) (h : x ∈ sortByName xs) :
    x ∈ xs := by
  rcases mem_foldl_insert xs [] x h with h1 | h2
  · exact absurd h1 (by simp)
  · exact h2

/-- A room that reached `ended` with a null mafia id (the mafia departed
and no alive back-fill candidate remained; the dead guardian is still in
the roster). -/
def endedNoMafiaLobby : Lobby :=
  { code := "AAAAA", hostId := some "C",
    players := [⟨"B", "Bea", Role.guardian, false, 0, some 9⟩,
                ⟨"C", "Cal", Role.villager, true, 0, none⟩],
    phase := Phase.ended, winner := some "Villagers", roundNumber := 2,
    roundEndsAt := none, lastMafiaActionAt := 0, mafiaKillRound := 0,
    mafiaId := none, guardianId := some "B", pendingKillId := none,
    pendingSaveId := none, mainMessages := [], dmThreads := [], history := [] }

/-- C4 counterexample: a dead viewer of an ended game receives a reveal
block whose `mafiaName` is null, because the mafia id is null — the
claim requires a non-null Mafia name for every dead-or-ended viewer. -/
theorem c4_counterexample :
    endedNoMafiaLobby.phase = Phase.ended ∧
    ((buildStateForViewer endedNoMafiaLobby "B" 0).bind ViewState.revealRoles).map
      RevealPanel.mafiaName = some none := by
  decide

/-- C4 (amended): for a viewer of a started game, (a) if the viewer is
dead or the phase is `ended`, the snapshot carries a reveal block, whose
mafiaName (resp. guardianName) equals the mafia's (resp. guardian's)
display name whenever the corresponding role id is set, names a player
still in the roster, and that player's name is nonempty — but is null
otherwise; (b) an alive viewer during `in_round` gets no reveal block
and sees no `roleVisible` label on any other player. -/
theorem c4_reveal (l : Lobby) (v : String) (now : Nat) (st : ViewState)
    (hstarted : l.phase ≠ Phase.lobby)
    (hview : buildStateForViewer l v now = some st) :
    ((aliveB l v = false ∨ l.phase = Phase.ended) →
      ∃ pan, st.revealRoles = some pan ∧
        (∀ m pm, l.mafiaId = some m → playerById l m = some pm → pm.name ≠ "" →
          pan.mafiaName = some pm.name) ∧
        (∀ g pg, l.guardianId = some g → playerById l g = some pg → pg.name ≠ "" →
          pan.guardianName = some pg.name)) ∧
    ((aliveB l v = true ∧ l.phase = Phase.inRound) →
      st.revealRoles = none ∧
      ∀ pv, pv ∈ st.players → pv.id ≠ v → pv.roleVisible = none) := by
  unfold buildStateForViewer at hview
  cases hf : playerById l v with
  | none => rw [hf] at hview; exact absurd hview (by simp)
  | some p =>
    rw [hf] at hview
    rw [Option.some.injEq] at hview
    subst hview
    have halV : aliveB l v = p.isAlive := by
      unfold aliveB
      rw [hf]
      rfl
    constructor
    · intro hcond
      have hreveal : shouldRevealRoles l v = true := by
        unfold shouldRevealRoles
        rw [hf]
        rcases hcond with hdead | hend
        · rw [halV] at hdead
          simp [hdead]
        · simp [hend]
      dsimp only
      rw [hreveal]
      unfold revealPanelFor
      rw [if_pos ⟨rfl, hstarted⟩]
      refine ⟨_, rfl, ?_, ?_⟩
      · intro m pm hmid hpm hname
        rw [hmid]
        dsimp only
        rw [show findPlayer l.players m = some pm from hpm]
        simp [jsOrNull, hname]
      · intro g pg hgid hpg hname
        rw [hgid]
        dsimp only
        rw [show findPlayer l.players g = some pg from hpg]
        simp [jsOrNull, hname]
    · intro hcond
      obtain ⟨hal, hin⟩ := hcond
      rw [halV] at hal
      have hreveal : shouldRevealRoles l v = false := by
        unfold shouldRevealRoles
        rw [hf]
        simp [hal, hin]
      dsimp only
      rw [hreveal]
      constructor
      · unfold revealPanelFor
        rw [if_neg (by simp)]
      · intro pv hpv hpvid
        have hmem := mem_sortByName _ pv hpv
        obtain ⟨q, hq, hfq⟩ := List.mem_map.mp hmem
        subst hfq
        unfold viewPlayerOf
        dsimp only
        rw [if_pos hstarted]
        unfold viewPlayerOf at hpvid
        dsimp only at hpvid
        rw [if_neg (by simpa using hpvid)]
        rw [if_neg (by simp)]
        rw [if_neg (by simp)]

/-- C4 amended witness: the dead guardian of `endedNoMafiaLobby` sees a
reveal block naming the guardian. -/
theorem c4_witness :
    ∃ pan, ∃ st, buildStateForViewer endedNoMafiaLobby "B" 0 = some st ∧
      st.revealRoles = some pan ∧ pan.guardianName = some "Bea" := by
  have hst : ∃ st, buildStateForViewer endedNoMafiaLobby "B" 0 = some st := by
    exact ⟨_, rfl⟩
  obtain ⟨st, hview⟩ := hst
  have h := (c4_reveal endedNoMafiaLobby "B" 0 st (by decide) hview).1 (by decide)
  obtain ⟨pan, hpan, _, hg⟩ := h
  exact ⟨pan, st, hview, hpan,
    hg "B" ⟨"B", "Bea", Role.guardian, false, 0, some 9⟩ (by decide) (by decide) (by decide)⟩

/-!
## C8 — rejected actions and room mutation
-/

/-- C8 counterexample: the Node `join_lobby` handler first removes the
acting socket from its current lobby; a join addressed to the very room
the socket occupies while a game is running is rejected with `ok:false`,
yet the room has been mutated (the player was removed, roles
back-filled, a system message appended) and a broadcast was emitted. -/
theorem c8_counterexample :
    (nodeJoin gameLobby "A" "Al" 5 "r1" "j1" 0 0).ok = false ∧
    (nodeJoin gameLobby "A" "Al" 5 "r1" "j1" 0 0).lobby ≠ some gameLobby ∧
    0 < (nodeJoin gameLobby "A" "Al" 5 "r1" "j1" 0 0).emits := by
  decide

/-- C8 (amended): for `start_game`, `send_main_message`,
`send_private_message`, `mafia_kill` and `guardian_save`, and for the
Worker join endpoint, a rejected action leaves the room state exactly as
it was and emits no state broadcast; the Node `join_lobby` handler obeys
this only when the acting socket is not already a member of the room,
because it removes the socket from its current lobby before validating. -/
theorem c8_rejection_no_mutation (l : Lobby) (sid toId targetId rawText rawName : String)
    (perm : List String) (mid remMid joinMid : String) (now : Nat) (k1 k2 : Nat) :
    ((startGameHandler l sid perm now mid).ok = false →
      (startGameHandler l sid perm now mid).lobby = l ∧
      (startGameHandler l sid perm now mid).emits = 0) ∧
    ((sendMainHandler l sid rawText mid now).ok = false →
      (sendMainHandler l sid rawText mid now).lobby = l ∧
      (sendMainHandler l sid rawText mid now).emits = 0) ∧
    ((sendPrivateHandler l sid toId rawText mid now).ok = false →
      (sendPrivateHandler l sid toId rawText mid now).lobby = l ∧
      (sendPrivateHandler l sid toId rawText mid now).emits = 0) ∧
    ((mafiaKillHandler l sid targetId now).ok = false →
      (mafiaKillHandler l sid targetId now).lobby = l ∧
      (mafiaKillHandler l sid targetId now).emits = 0) ∧
    ((guardianSaveHandler l sid targetId).ok = false →
      (guardianSaveHandler l sid targetId).lobby = l ∧
      (guardianSaveHandler l sid targetId).emits = 0) ∧
    ((workerJoin l sid rawName now mid).ok = false →
      (workerJoin l sid rawName now mid).lobby = some l ∧
      (workerJoin l sid rawName now mid).emits = 0) ∧
    (playerById l sid = none →
      (nodeJoin l sid rawName now remMid joinMid k1 k2).ok = false →
      (nodeJoin l sid rawName now remMid joinMid k1 k2).lobby = some l ∧
      (nodeJoin l sid rawName now remMid joinMid k1 k2).emits = 0) := by
  refine ⟨?_, ?_, ?_, ?_, ?_, ?_, ?_⟩
  · unfold startGameHandler rejectWith
    repeat' split
    all_goals first
      | exact fun _ => ⟨rfl, rfl⟩
      | (intro hok; simp at hok)
  · unfold sendMainHandler rejectWith
    dsimp only
    repeat' split
    all_goals first
      | exact fun _ => ⟨rfl, rfl⟩
      | (intro hok; simp at hok)
  · unfold sendPrivateHandler rejectWith
    dsimp only
    repeat' split
    all_goals first
      | exact fun _ => ⟨rfl, rfl⟩
      | (intro hok; simp at hok)
  · unfold mafiaKillHandler rejectWith
    repeat' split
    all_goals first
      | exact fun _ => ⟨rfl, rfl⟩
      | (intro hok; simp at hok)
  · unfold guardianSaveHandler rejectWith
    repeat' split
    all_goals first
      | exact fun _ => ⟨rfl, rfl⟩
      | (intro hok; simp at hok)
  · unfold workerJoin
    split
    · exact fun _ => ⟨rfl, rfl⟩
    · intro hok
      simp at hok
  · intro hfresh
    unfold nodeJoin
    rw [hfresh]
    simp only [Option.isSome_none, Bool.false_eq_true, if_false, ite_false]
    split
    · exact fun _ => ⟨rfl, by simp⟩
    · intro hok
      simp at hok

/-- C8 amended witness: a non-host start attempt mutates nothing. -/
theorem c8_witness :
    (startGameHandler gameLobby "B" [] 0 "m0").lobby = gameLobby ∧
    (startGameHandler gameLobby "B" [] 0 "m0").emits = 0 :=
  (c8_rejection_no_mutation gameLobby "B" "" "" "" "" [] "m0" "r0" "j0" 0 0 0).1 (by decide)
